import Mathlib

namespace Scraper

/-!
Verification of the request-orchestration core of the biomedical
data-scraper platform: the file-download pipeline
(`common/pipeline/file_pipeline.py`), the adaptive rate limiter and
session manager (`common/middleware/rate_limit.py`), and the proxy pool
(`common/proxy/proxy_pool.py`).

Python code is shallowly embedded: dictionaries become structures or
function maps, wall-clock time and random draws become explicit
parameters, machine floats are modelled as rationals, and decimal
formatting of integers (Python `str(int)` inside f-strings) is embedded
as an explicit executable function `natStr`.
-/

/-! ## Decimal formatting of integers

Embedding of Python's decimal rendering of a non-negative integer, as it
occurs inside f-strings such as `f"sup_{file_index}{file_ext}"`.
The digits are produced little-endian with a fuel argument so that the
definition is structural (hence evaluable by `rfl`/`decide`); fuel `n`
is always sufficient for input `n`.
-/

/-- One decimal digit as a character; inputs are always `< 10`. -/
def digitChar (d : Nat) : Char :=
  match d with
  | 0 => '0' | 1 => '1' | 2 => '2' | 3 => '3' | 4 => '4'
  | 5 => '5' | 6 => '6' | 7 => '7' | 8 => '8' | _ => '9'

/-- Little-endian decimal digits of `n`, with explicit fuel. -/
def natDigitsAux : Nat → Nat → List Nat
  | 0, _ => []
  | _ + 1, 0 => []
  | fuel + 1, n + 1 => ((n + 1) % 10) :: natDigitsAux fuel ((n + 1) / 10)

/-- Little-endian decimal digits of `n` (`[]` for `0`). -/
def natDigits (n : Nat) : List Nat := natDigitsAux n n

/-- Value of a little-endian digit list. -/
def digitsVal : List Nat → Nat
  | [] => 0
  | d :: ds => d + 10 * digitsVal ds

/-- Python `str(n)` for a non-negative integer `n`. -/
def natStr (n : Nat) : String :=
  if n = 0 then "0" else String.mk ((natDigits n).map digitChar).reverse

/-- First character of a string, if any. -/
def firstChar (s : String) : Option Char := s.data.head?

/-! ## File pipeline (`common/pipeline/file_pipeline.py`)

`BiomedicalFilesPipeline.file_path` and `_get_file_extension` are pure
functions of the request metadata, the parsed URL path and the response
Content-Type; they are embedded directly.  URL parsing itself
(`urlparse(url).path`) is external: the embedding takes the parsed path
component as input.
-/

/-- Characters after the last `/` of a path, as `os.path.basename` and the
basename step of `os.path.splitext` compute it. -/
def basenameChars (cs : List Char) : List Char :=
  (cs.reverse.takeWhile (fun c => c ≠ '/')).reverse

/-- `os.path.basename` of a POSIX path. -/
def basenameOf (p : String) : String := String.mk (basenameChars p.data)

/-- `os.path.splitext(p)[1]`: the suffix of the last path segment starting at
its last dot, except that a dot inside the segment's leading run of dots
never starts an extension (so `.bashrc` has no extension). -/
def splitextExt (p : String) : String :=
  let base := basenameChars p.data
  let trimmed := base.dropWhile (fun c => c = '.')
  let r := trimmed.reverse
  if r.any (fun c => c = '.') then String.mk ('.' :: (r.takeWhile (fun c => c ≠ '.')).reverse)
  else ""

/-- Python `str.lower`, restricted to the ASCII case mapping. -/
def strLower (s : String) : String := String.mk (s.data.map Char.toLower)

/-- Python substring test `needle in hay`. -/
def listContains : List Char → List Char → Bool
  | [], needle => needle.isEmpty
  | c :: t, needle => needle.isPrefixOf (c :: t) || listContains t needle

/-- The fixed MIME table `ext_map` of `_get_file_extension`, in source
order. -/
def mimeExtMap : List (String × String) :=
  [("application/pdf", ".pdf"),
   ("application/msword", ".doc"),
   ("application/vnd.openxmlformats-officedocument.wordprocessingml.document", ".docx"),
   ("application/vnd.ms-excel", ".xls"),
   ("application/vnd.openxmlformats-officedocument.spreadsheetml.sheet", ".xlsx"),
   ("text/plain", ".txt"),
   ("text/csv", ".csv"),
   ("application/zip", ".zip"),
   ("application/x-gzip", ".gz")]

/-- The `for mime_type, extension in ext_map.items()` scan: first table entry
whose MIME type occurs as a substring of the Content-Type value. -/
def lookupMime : List (String × String) → String → Option String
  | [], _ => none
  | (m, e) :: rest, ct => if listContains ct.data m.data then some e else lookupMime rest ct

/-- `BiomedicalFilesPipeline._get_file_extension`.  `urlPath` is
`urlparse(url).path`; `contentType` is the response's Content-Type header
(`none` models a missing response; a response with a missing header yields
`some ""`). -/
def getFileExtension (urlPath : String) (contentType : Option String) : String :=
  let ext := if urlPath ≠ "" then splitextExt urlPath else ""
  if ext ≠ "" then strLower ext
  else
    match contentType with
    | some ct =>
      match lookupMime mimeExtMap (strLower ct) with
      | some e => e
      | none => ".bin"
    | none => ".bin"

/-- `BiomedicalFilesPipeline.file_path`.  `track_id`, `file_type`,
`file_index` and `comment_index` come from the request meta; `urlPath` is
`urlparse(request.url).path` (used only by the unrecognized-type branch);
`ext` is the already-resolved file extension. -/
def filePath (track_id file_type : String) (file_index comment_index : Nat)
    (urlPath ext : String) : String :=
  if file_type = "main" then
    let filename := track_id ++ ext
    "main_file/" ++ filename
  else if file_type = "supplementary" then
    let filename := "sup_" ++ natStr file_index ++ ext
    "SI_file/" ++ track_id ++ "/" ++ filename
  else if file_type = "peer_review" then
    let filename := "pr_" ++ natStr file_index ++ ext
    "PR_file/" ++ track_id ++ "/" ++ filename
  else if file_type = "comment_attachment" then
    let filename := "comment_" ++ natStr comment_index ++ "_attach_" ++ natStr file_index ++ ext
    "PR_file/" ++ track_id ++ "/" ++ filename
  else
    let filename := basenameOf urlPath
    if filename = "" then "other/" ++ track_id ++ "/" ++ ("file_" ++ natStr file_index ++ ext)
    else "other/" ++ track_id ++ "/" ++ filename

/-- The five file roles of the spec.  The source tags requests with the
meta strings below; any unrecognized string falls into the `other` branch of
`file_path`, represented here by the source's own default tag
`"unknown"`. -/
inductive FileRole
  | main
  | supplementary
  | peer_review
  | comment_attachment
  | other
deriving DecidableEq

/-- The `file_type` meta string carried by requests of each role. -/
def FileRole.metaString : FileRole → String
  | .main => "main"
  | .supplementary => "supplementary"
  | .peer_review => "peer_review"
  | .comment_attachment => "comment_attachment"
  | .other => "unknown"

/-- One scrapy file-result dictionary: the fields of `file_info` that
`item_completed` reads or writes. -/
structure FileDesc where
  url : String
  path : Option String
  sha256 : Option String
deriving DecidableEq

/-- Content of one stored file: readable bytes, or a file whose open/read
raises (modelling the `except` branch of `_calculate_sha256`). -/
inductive DiskFile
  | readable (bytes : List Nat)
  | unreadable
deriving DecidableEq

/-- The downloaded-file store under `self.store.basedir`: `none` means the
path does not exist (`os.path.exists` is false). -/
def Disk := String → Option DiskFile

/-- `BiomedicalFilesPipeline._calculate_sha256`.  Reading in 4096-byte
chunks and feeding them to an incremental hash yields the digest of the
whole byte stream, so the embedding applies the digest function `hash`
to the full content; any exception yields `""`. -/
def calcSha256 (hash : List Nat → String) (disk : Disk) (p : String) : String :=
  match disk p with
  | some (DiskFile.readable bytes) => hash bytes
  | some DiskFile.unreadable => ""
  | none => ""

/-- The `item['downloaded_files']` summary dictionary. -/
structure DownloadSummary where
  successful : Nat
  failed : Nat
  files : List FileDesc
deriving DecidableEq

/-- The per-file checksum pass of `item_completed`: a successful descriptor
with a truthy path that exists on disk gets a `sha256` entry. -/
def attachChecksum (hash : List Nat → String) (disk : Disk) (fd : FileDesc) : FileDesc :=
  match fd.path with
  | some p =>
    if p ≠ "" && (disk p).isSome then { fd with sha256 := some (calcSha256 hash disk p) }
    else fd
  | none => fd

/-- `BiomedicalFilesPipeline.item_completed`: split `results` into
successes and failures, store the counts and the successful descriptors,
then attach checksums to the successful files present on disk. -/
def itemCompleted (hash : List Nat → String) (disk : Disk)
    (results : List (Bool × FileDesc)) : DownloadSummary :=
  let successfulList := (results.filter (fun r => r.fst)).map (fun r => r.snd)
  let failedList := (results.filter (fun r => !r.fst)).map (fun r => r.snd)
  { successful := successfulList.length
    failed := failedList.length
    files := successfulList.map (attachChecksum hash disk) }

/-- First character of the storage path of each role; `peer_review` and
`comment_attachment` share the `PR_file` directory. -/
def roleChar : FileRole → Char
  | .main => 'm'
  | .supplementary => 'S'
  | .peer_review => 'P'
  | .comment_attachment => 'P'
  | .other => 'o'

/-! ## Adaptive rate limiter (`common/middleware/rate_limit.py`, `SmartRateLimiter`)

Per-domain statistics dictionary and the delay-adjustment policy.  Float
arithmetic is modelled over `ℚ`; the decimal literals are the source's own
constants. -/

/-- One entry of `SmartRateLimiter.domain_stats`. -/
structure DomainStats where
  total_requests : Nat
  success_requests : Nat
  failed_requests : Nat
  avg_response_time : ℚ
  current_delay : ℚ
deriving DecidableEq

/-- The `defaultdict` initializer: fresh stats start at `current_delay =
min_delay`. -/
def initDomainStats (min_delay : ℚ) : DomainStats :=
  { total_requests := 0, success_requests := 0, failed_requests := 0,
    avg_response_time := 0, current_delay := min_delay }

/-- The error-rate expression of `_adjust_delay` (guarded division). -/
def errorRate (s : DomainStats) : ℚ :=
  if s.total_requests > 0 then (s.failed_requests : ℚ) / (s.total_requests : ℚ) else 0

/-- `SmartRateLimiter._adjust_delay`: raise the delay by 1.5× (capped at
`max_delay`) when the error rate exceeds 20%; lower it by 0.9× (floored at
`min_delay`, and only if that actually lowers it) when the error rate is
below 5% and the average response time below one second. -/
def adjustDelay (min_delay max_delay : ℚ) (s : DomainStats) : DomainStats :=
  if errorRate s > 0.2 then
    { s with current_delay := min (s.current_delay * 1.5) max_delay }
  else if errorRate s < 0.05 ∧ s.avg_response_time < 1.0 then
    if max (s.current_delay * 0.9) min_delay < s.current_delay then
      { s with current_delay := max (s.current_delay * 0.9) min_delay }
    else s
  else s

/-- `SmartRateLimiter.record_success`: bump counters, fold the sample into
the two-point average response time, then adjust when adaptive. -/
def recordSuccess (adaptive : Bool) (min_delay max_delay response_time : ℚ)
    (s : DomainStats) : DomainStats :=
  let s1 := { s with total_requests := s.total_requests + 1,
                     success_requests := s.success_requests + 1 }
  let s2 := if s1.avg_response_time = 0 then { s1 with avg_response_time := response_time }
            else { s1 with avg_response_time := (s1.avg_response_time + response_time) / 2 }
  if adaptive then adjustDelay min_delay max_delay s2 else s2

/-- `SmartRateLimiter.record_failure`. -/
def recordFailure (adaptive : Bool) (min_delay max_delay : ℚ) (s : DomainStats) : DomainStats :=
  let s1 := { s with total_requests := s.total_requests + 1,
                     failed_requests := s.failed_requests + 1 }
  if adaptive then adjustDelay min_delay max_delay s1 else s1

/-- One recorded request outcome for a domain. -/
inductive ReqOutcome
  | ok (response_time : ℚ)
  | err
deriving DecidableEq

/-- Dispatch one outcome to `record_success`/`record_failure`. -/
def applyOutcome (adaptive : Bool) (min_delay max_delay : ℚ) (s : DomainStats) :
    ReqOutcome → DomainStats
  | .ok rt => recordSuccess adaptive min_delay max_delay rt s
  | .err => recordFailure adaptive min_delay max_delay s

/-- A whole sequence of recorded outcomes for one domain. -/
def runOutcomes (adaptive : Bool) (min_delay max_delay : ℚ) (s : DomainStats)
    (outs : List ReqOutcome) : DomainStats :=
  outs.foldl (applyOutcome adaptive min_delay max_delay) s

/-! ## Session manager (`common/middleware/rate_limit.py`, `SessionManager`)

Wall-clock instants are rationals supplied explicitly (`datetime.now()`
becomes a `now` parameter); the in-memory cache and the pickle directory
both become key-indexed partial maps.  `get_session` returns the looked-up
bundle together with the updated manager (Python mutates `self`). -/

/-- One session bundle (the dictionary built by `save_session`). -/
structure SessionData where
  platform : String
  account_id : Option String
  cookies : List (String × String)
  created_at : ℚ
  last_used : ℚ
  metadata : List (String × String)
deriving DecidableEq

/-- `SessionManager` state: timeout configuration, in-memory cache
(`self.sessions`) and durable pickle files (`session_dir`). -/
structure SessionManager where
  session_timeout : ℚ
  sessions : String → Option SessionData
  fileStore : String → Option SessionData

/-- A manager with no stored sessions. -/
def emptySessionManager (timeout : ℚ) : SessionManager :=
  { session_timeout := timeout, sessions := fun _ => none, fileStore := fun _ => none }

/-- The session key `f"{platform}_{account_id}" if account_id else platform`;
note that Python's truthiness sends both `None` and the empty string to the
bare-platform key. -/
def sessionKey (platform : String) (account_id : Option String) : String :=
  match account_id with
  | some a => if a ≠ "" then platform ++ "_" ++ a else platform
  | none => platform

/-- `SessionManager._is_session_valid`: age strictly below the timeout. -/
def isSessionValid (now timeout : ℚ) (s : SessionData) : Bool :=
  decide (now - s.last_used < timeout)

/-- The file-load-and-promote tail of `get_session` (lines 190–198):
load the key's durable copy, re-validate, and on success promote it into
the in-memory cache. -/
def loadFromFile (now : ℚ) (m : SessionManager) (key : String) :
    Option SessionData × SessionManager :=
  match m.fileStore key with
  | some s =>
    if isSessionValid now m.session_timeout s then
      (some s, { m with sessions := fun k => if k = key then some s else m.sessions k })
    else (none, m)
  | none => (none, m)

/-- `SessionManager.get_session`: serve a valid in-memory copy; evict a
stale one and fall back to the durable copy. -/
def getSession (now : ℚ) (m : SessionManager) (platform : String)
    (account_id : Option String) : Option SessionData × SessionManager :=
  let key := sessionKey platform account_id
  match m.sessions key with
  | some s =>
    if isSessionValid now m.session_timeout s then (some s, m)
    else
      loadFromFile now
        { m with sessions := fun k => if k = key then none else m.sessions k } key
  | none => loadFromFile now m key

/-- `SessionManager.save_session`: build a bundle stamped `now` and write it
to both the in-memory cache and the durable store. -/
def saveSession (now : ℚ) (m : SessionManager) (platform : String)
    (cookies : List (String × String)) (account_id : Option String)
    (metadata : List (String × String)) : SessionManager :=
  let key := sessionKey platform account_id
  let s : SessionData :=
    { platform := platform, account_id := account_id, cookies := cookies,
      created_at := now, last_used := now, metadata := metadata }
  { m with sessions := fun k => if k = key then some s else m.sessions k,
           fileStore := fun k => if k = key then some s else m.fileStore k }

/-- `SessionManager.clear_session`: drop the key from both stores. -/
def clearSession (m : SessionManager) (platform : String)
    (account_id : Option String) : SessionManager :=
  let key := sessionKey platform account_id
  { m with sessions := fun k => if k = key then none else m.sessions k,
           fileStore := fun k => if k = key then none else m.fileStore k }

/-! ## Proxy pool (`common/proxy/proxy_pool.py`)

Timestamps are rationals supplied explicitly; `random.choice` becomes an
explicit draw index carried by the rotation strategy; the Python methods
mutate the first list entry whose `url` matches (object identity and list
position coincide in the source, which never stores the same object
twice). -/

/-- The `ProxyInfo` dataclass. -/
structure ProxyInfo where
  url : String
  protocol : String
  success_count : Nat
  fail_count : Nat
  last_used : Option ℚ
  last_success : Option ℚ
  response_time : ℚ
  is_banned : Bool
deriving DecidableEq

/-- A fresh `ProxyInfo(url=..., protocol=...)` with the dataclass
defaults. -/
def mkProxyInfo (url protocol : String) : ProxyInfo :=
  { url := url, protocol := protocol, success_count := 0, fail_count := 0,
    last_used := none, last_success := none, response_time := 0, is_banned := false }

/-- `ProxyInfo.success_rate`: successes over total attempts, 0 with no
attempts. -/
def ProxyInfo.success_rate (p : ProxyInfo) : ℚ :=
  if p.success_count + p.fail_count > 0 then
    (p.success_count : ℚ) / ((p.success_count : ℚ) + (p.fail_count : ℚ))
  else 0

/-- `ProxyInfo.score`: `success_rate * 70 + max(0, 30 - response_time * 10)`
(a 0–100 scale). -/
def ProxyInfo.score (p : ProxyInfo) : ℚ :=
  p.success_rate * 70 + max 0 (30 - p.response_time * 10)

/-- The selection strategies of `ProxyPool`; `random_choice` carries the
index drawn by `random.choice`, and `other_strategy` stands for any
unrecognized strategy string (the final `else` of `get_proxy`). -/
inductive RotationStrategy
  | round_robin
  | random_choice (draw : Nat)
  | best_performance
  | other_strategy
deriving DecidableEq

/-- `ProxyPool` state. -/
structure ProxyPool where
  rotation_strategy : RotationStrategy
  max_fail_count : Nat
  ban_duration : ℚ
  proxies : List ProxyInfo
  current_index : Nat

/-- Placeholder returned by total list indexing; never selected, since the
eligible list is non-empty wherever it is used. -/
def dummyProxy : ProxyInfo := mkProxyInfo "" "http"

/-- The availability filter of `get_proxy`: not banned, or banned with the
cooldown strictly elapsed since `last_used` (a banned proxy that was never
used stays unavailable). -/
def proxyAvailable (now ban : ℚ) (p : ProxyInfo) : Bool :=
  !p.is_banned ||
    (match p.last_used with
     | some t => decide (now - t > ban)
     | none => false)

/-- Python's `max(avail, key=lambda p: p.score)`: the first element with
the maximal score. -/
def maxByScore (hd : ProxyInfo) (tl : List ProxyInfo) : ProxyInfo :=
  tl.foldl (fun best p => if p.score > best.score then p else best) hd

/-- Strategy dispatch of `get_proxy` over the non-empty available list. -/
def chooseProxy (pool : ProxyPool) (avail : List ProxyInfo) : ProxyInfo :=
  match pool.rotation_strategy with
  | .round_robin => avail.getD (pool.current_index % avail.length) dummyProxy
  | .random_choice draw => avail.getD (draw % avail.length) dummyProxy
  | .best_performance => maxByScore (avail.headD dummyProxy) avail.tail
  | .other_strategy => avail.headD dummyProxy

/-- The `self.current_index += 1` of the round-robin branch. -/
def bumpIndex (pool : ProxyPool) : ProxyPool :=
  match pool.rotation_strategy with
  | .round_robin => { pool with current_index := pool.current_index + 1 }
  | _ => pool

/-- Replace the first list entry whose `url` matches (the object
`_find_proxy` returns and the methods mutate). -/
def updateFirst (f : ProxyInfo → ProxyInfo) (url : String) :
    List ProxyInfo → List ProxyInfo
  | [] => []
  | p :: ps => if p.url = url then f p :: ps else p :: updateFirst f url ps

/-- `ProxyPool.get_proxy`: `None` on an empty pool or empty available
subset; otherwise select per strategy, stamp the chosen proxy's
`last_used`, and return its URL for both schemes. -/
def getProxy (now : ℚ) (pool : ProxyPool) : Option (String × String) × ProxyPool :=
  if pool.proxies.isEmpty then (none, pool)
  else
    let avail := pool.proxies.filter (proxyAvailable now pool.ban_duration)
    if avail.isEmpty then (none, pool)
    else
      let chosen := chooseProxy pool avail
      let pool2 := bumpIndex pool
      (some (chosen.url, chosen.url),
       { pool2 with proxies :=
          updateFirst (fun p => { p with last_used := some now }) chosen.url pool2.proxies })

/-- The per-proxy mutation of `mark_success`: bump the success counter,
stamp `last_success`, clear the ban, fold the response time into the
two-point average. -/
def applySuccess (now rt : ℚ) (p : ProxyInfo) : ProxyInfo :=
  let p1 := { p with success_count := p.success_count + 1, last_success := some now,
                     is_banned := false }
  if p1.response_time = 0 then { p1 with response_time := rt }
  else { p1 with response_time := (p1.response_time + rt) / 2 }

/-- The per-proxy mutation of `mark_failure`: bump the failure counter and
ban once `fail_count ≥ max_fail_count`. -/
def applyFailure (maxFail : Nat) (p : ProxyInfo) : ProxyInfo :=
  let p1 := { p with fail_count := p.fail_count + 1 }
  if maxFail ≤ p1.fail_count then { p1 with is_banned := true } else p1

/-- `ProxyPool.mark_success(url, response_time)`; a URL not in the pool is
a no-op. -/
def markSuccess (now rt : ℚ) (pool : ProxyPool) (url : String) : ProxyPool :=
  { pool with proxies := updateFirst (applySuccess now rt) url pool.proxies }

/-- `ProxyPool.mark_failure(url, reason)`; the reason is only logged. -/
def markFailure (pool : ProxyPool) (url : String) : ProxyPool :=
  { pool with proxies := updateFirst (applyFailure pool.max_fail_count) url pool.proxies }

/-- `ProxyPool.add_proxy`. -/
def addProxy (pool : ProxyPool) (url protocol : String) : ProxyPool :=
  { pool with proxies := pool.proxies ++ [mkProxyInfo url protocol] }

/-- The pool operations a crawl exercises. -/
inductive PoolOp
  | op_success (url : String) (now rt : ℚ)
  | op_failure (url : String)
  | op_get (now : ℚ)
  | op_add (url protocol : String)

/-- Apply one pool operation. -/
def applyPoolOp (pool : ProxyPool) : PoolOp → ProxyPool
  | .op_success url now rt => markSuccess now rt pool url
  | .op_failure url => markFailure pool url
  | .op_get now => (getProxy now pool).snd
  | .op_add url protocol => addProxy pool url protocol

/-- Apply a sequence of pool operations. -/
def runPoolOps (pool : ProxyPool) (ops : List PoolOp) : ProxyPool :=
  ops.foldl applyPoolOp pool

/-- A banned proxy with zero recorded successes, last used at instant 0. -/
def bannedProxyA : ProxyInfo :=
  { url := "http://a", protocol := "http", success_count := 0, fail_count := 5,
    last_used := some 0, last_success := none, response_time := 0, is_banned := true }

/-- A pool holding only `bannedProxyA`, cooldown 300 seconds. -/
def coolPoolA : ProxyPool :=
  { rotation_strategy := RotationStrategy.round_robin, max_fail_count := 5,
    ban_duration := 300, proxies := [bannedProxyA], current_index := 0 }

/-- The empty pool with the same configuration. -/
def emptyPoolA : ProxyPool :=
  { rotation_strategy := RotationStrategy.round_robin, max_fail_count := 5,
    ban_duration := 300, proxies := [], current_index := 0 }

/-- A pool holding one never-failed proxy `"u"`, banned after 2 failures. -/
def freshPoolU : ProxyPool :=
  { rotation_strategy := RotationStrategy.round_robin, max_fail_count := 2,
    ban_duration := 300, proxies := [mkProxyInfo "u" "http"], current_index := 0 }

/-- A proxy that has already accumulated `fail_count = 5`. -/
def wornProxy : ProxyInfo :=
  { url := "u", protocol := "http", success_count := 0, fail_count := 5,
    last_used := none, last_success := none, response_time := 0, is_banned := true }

/-! ## Theorems -/

theorem digitsVal_natDigitsAux : ∀ fuel n, n ≤ fuel → digitsVal (natDigitsAux fuel n) = n := by
  intro fuel
  induction fuel with
  | zero =>
    intro n hn
    interval_cases n
    rfl
  | succ f ih =>
    intro n hn
    match n with
    | 0 => rfl
    | m + 1 =>
      have hdiv : (m + 1) / 10 ≤ f := by
        have h1 : (m + 1) / 10 < m + 1 := Nat.div_lt_self (Nat.succ_pos m) (by decide)
        omega
      simp only [natDigitsAux, digitsVal, ih _ hdiv]
      omega

theorem natDigitsAux_lt_ten : ∀ fuel n d, d ∈ natDigitsAux fuel n → d < 10 := by
  intro fuel
  induction fuel with
  | zero => intro n d hd; simp [natDigitsAux] at hd
  | succ f ih =>
    intro n d hd
    match n with
    | 0 => simp [natDigitsAux] at hd
    | m + 1 =>
      simp only [natDigitsAux, List.mem_cons] at hd
      rcases hd with h | h
      · subst h; exact Nat.mod_lt _ (by decide)
      · exact ih _ _ h

theorem natDigits_lt_ten (n d : Nat) (hd : d ∈ natDigits n) : d < 10 :=
  natDigitsAux_lt_ten n n d hd

theorem digitsVal_natDigits (n : Nat) : digitsVal (natDigits n) = n :=
  digitsVal_natDigitsAux n n le_rfl

theorem natDigits_injective (m n : Nat) (h : natDigits m = natDigits n) : m = n := by
  have := digitsVal_natDigits m
  rw [h, digitsVal_natDigits] at this
  omega

theorem digitChar_isDigit (d : Nat) : (digitChar d).isDigit = true := by
  unfold digitChar
  split <;> decide

theorem digitChar_injOn (d e : Nat) (hd : d < 10) (he : e < 10)
    (h : digitChar d = digitChar e) : d = e := by
  interval_cases d <;> interval_cases e <;> simp_all [digitChar]

theorem map_digitChar_inj : ∀ (a b : List Nat), (∀ x ∈ a, x < 10) → (∀ x ∈ b, x < 10) →
    a.map digitChar = b.map digitChar → a = b := by
  intro a
  induction a with
  | nil =>
    intro b _ _ h
    cases b with
    | nil => rfl
    | cons y ys => simp at h
  | cons x xs ih =>
    intro b ha hb h
    cases b with
    | nil => simp at h
    | cons y ys =>
      simp only [List.map_cons, List.cons.injEq] at h
      have hx : x = y := digitChar_injOn x y (ha x (by simp)) (hb y (by simp)) h.1
      have hxs : xs = ys := ih ys (fun z hz => ha z (by simp [hz]))
        (fun z hz => hb z (by simp [hz])) h.2
      rw [hx, hxs]

theorem natStr_data_digits (n : Nat) (c : Char) (hc : c ∈ (natStr n).data) :
    c.isDigit = true := by
  unfold natStr at hc
  split at hc
  · simp only [String.data] at hc
    have : c = '0' := by simpa using hc
    subst this; decide
  · simp only [String.data, List.mem_reverse, List.mem_map] at hc
    obtain ⟨d, _, hd2⟩ := hc
    rw [← hd2]; exact digitChar_isDigit d

theorem natStr_ne_empty (n : Nat) : (natStr n).data ≠ [] := by
  unfold natStr
  split
  · simp [String.data]
  · rename_i h
    simp only [String.data, ne_eq, List.reverse_eq_nil_iff, List.map_eq_nil_iff]
    intro hnil
    have := digitsVal_natDigits n
    rw [hnil] at this
    simp [digitsVal] at this
    omega

theorem natStr_injective (m n : Nat) (h : natStr m = natStr n) : m = n := by
  unfold natStr at h
  by_cases hm : m = 0 <;> by_cases hn : n = 0
  · omega
  · rw [if_pos hm, if_neg hn] at h
    exfalso
    have hdata : ('0' :: []) = ((natDigits n).map digitChar).reverse := congrArg String.data h
    have hlen : ((natDigits n).map digitChar).reverse.length = 1 := by rw [← hdata]; rfl
    simp only [List.length_reverse, List.length_map] at hlen
    obtain ⟨d, hds⟩ : ∃ d, natDigits n = [d] := by
      cases hds : natDigits n with
      | nil => rw [hds] at hlen; simp at hlen
      | cons x xs =>
        rw [hds] at hlen
        simp only [List.length_cons] at hlen
        have : xs = [] := List.length_eq_zero.mp (by omega)
        exact ⟨x, by rw [this]⟩
    rw [hds] at hdata
    simp only [List.map_cons, List.map_nil, List.reverse_cons, List.reverse_nil,
      List.nil_append, List.cons.injEq] at hdata
    have hd0 : d = 0 := by
      have hdlt : d < 10 := natDigits_lt_ten n d (by rw [hds]; simp)
      exact digitChar_injOn d 0 hdlt (by decide) hdata.1.symm
    have := digitsVal_natDigits n
    rw [hds, hd0] at this
    simp [digitsVal] at this
    omega
  · rw [if_neg hm, if_pos hn] at h
    exfalso
    have hdata : ((natDigits m).map digitChar).reverse = ('0' :: []) := congrArg String.data h
    have hlen : ((natDigits m).map digitChar).reverse.length = 1 := by rw [hdata]; rfl
    simp only [List.length_reverse, List.length_map] at hlen
    obtain ⟨d, hds⟩ : ∃ d, natDigits m = [d] := by
      cases hds : natDigits m with
      | nil => rw [hds] at hlen; simp at hlen
      | cons x xs =>
        rw [hds] at hlen
        simp only [List.length_cons] at hlen
        have : xs = [] := List.length_eq_zero.mp (by omega)
        exact ⟨x, by rw [this]⟩
    rw [hds] at hdata
    simp only [List.map_cons, List.map_nil, List.reverse_cons, List.reverse_nil,
      List.nil_append, List.cons.injEq] at hdata
    have hd0 : d = 0 := by
      have hdlt : d < 10 := natDigits_lt_ten m d (by rw [hds]; simp)
      exact digitChar_injOn d 0 hdlt (by decide) hdata.1
    have := digitsVal_natDigits m
    rw [hds, hd0] at this
    simp [digitsVal] at this
    omega
  · rw [if_neg hm, if_neg hn] at h
    have hdata := congrArg String.data h
    simp only [String.data] at hdata
    have hmap : (natDigits m).map digitChar = (natDigits n).map digitChar :=
      List.reverse_injective hdata
    exact natDigits_injective m n (map_digitChar_inj _ _
      (fun x hx => natDigits_lt_ten m x hx) (fun x hx => natDigits_lt_ten n x hx) hmap)

/-! ## String helpers -/

theorem string_data_append (s t : String) : (s ++ t).data = s.data ++ t.data := by
  cases s; cases t; rfl

theorem string_append_cancel_left {s a b : String} (h : s ++ a = s ++ b) : a = b := by
  have := congrArg String.data h
  rw [string_data_append, string_data_append] at this
  exact String.ext (List.append_cancel_left this)

theorem firstChar_append (s t : String) (c : Char) (h : firstChar s = some c) :
    firstChar (s ++ t) = some c := by
  cases s with
  | mk l =>
    cases l with
    | nil => simp [firstChar] at h
    | cons x xs =>
      cases t with
      | mk l2 => simpa [firstChar, string_data_append] using h

theorem ne_of_firstChar_ne {s t : String} {c d : Char} (hs : firstChar s = some c)
    (ht : firstChar t = some d) (hcd : c ≠ d) : s ≠ t := by
  intro h
  rw [h, ht] at hs
  exact hcd (Option.some.injEq _ _ ▸ hs.symm ▸ rfl)

/-- A run of decimal digits followed by a non-digit (or nothing) determines
itself uniquely inside a character-list concatenation. -/
theorem digit_run_unique : ∀ (a b r s : List Char),
    (∀ ch ∈ a, ch.isDigit = true) → (∀ ch ∈ b, ch.isDigit = true) →
    (∀ ch, r.head? = some ch → ch.isDigit = false) →
    (∀ ch, s.head? = some ch → ch.isDigit = false) →
    a ++ r = b ++ s → a = b ∧ r = s := by
  intro a
  induction a with
  | nil =>
    intro b r s _ hb hr _ h
    cases b with
    | nil => exact ⟨rfl, by simpa using h⟩
    | cons y ys =>
      exfalso
      simp only [List.nil_append, List.cons_append] at h
      have hy : r.head? = some y := by rw [h]; rfl
      have := hr y hy
      have := hb y (by simp)
      simp_all
  | cons x xs ih =>
    intro b r s ha hb hr hs h
    cases b with
    | nil =>
      exfalso
      simp only [List.cons_append, List.nil_append] at h
      have hx : s.head? = some x := by rw [← h]; rfl
      have := hs x hx
      have := ha x (by simp)
      simp_all
    | cons y ys =>
      simp only [List.cons_append, List.cons.injEq] at h
      obtain ⟨hxy, htail⟩ := h
      obtain ⟨h1, h2⟩ := ih ys r s (fun ch hch => ha ch (by simp [hch]))
        (fun ch hch => hb ch (by simp [hch])) hr hs htail
      exact ⟨by rw [hxy, h1], h2⟩

/-! ## Path-generation lemmas (claim C1) -/

theorem filePath_main_unfold (t : String) (i c : Nat) (up e : String) :
    filePath t "main" i c up e = "main_file/" ++ (t ++ e) := rfl

theorem filePath_sup_unfold (t : String) (i c : Nat) (up e : String) :
    filePath t "supplementary" i c up e = "SI_file/" ++ t ++ "/" ++ ("sup_" ++ natStr i ++ e) := rfl

theorem filePath_pr_unfold (t : String) (i c : Nat) (up e : String) :
    filePath t "peer_review" i c up e = "PR_file/" ++ t ++ "/" ++ ("pr_" ++ natStr i ++ e) := rfl

theorem filePath_comment_unfold (t : String) (i c : Nat) (up e : String) :
    filePath t "comment_attachment" i c up e =
      "PR_file/" ++ t ++ "/" ++ ("comment_" ++ natStr c ++ "_attach_" ++ natStr i ++ e) := rfl

theorem filePath_unknown_unfold (t : String) (i c : Nat) (up e : String) :
    filePath t "unknown" i c up e =
      if basenameOf up = "" then "other/" ++ t ++ "/" ++ ("file_" ++ natStr i ++ e)
      else "other/" ++ t ++ "/" ++ basenameOf up := rfl

theorem firstChar_filePath_role (r : FileRole) (t : String) (i c : Nat) (up e : String) :
    firstChar (filePath t r.metaString i c up e) = some (roleChar r) := by
  cases r with
  | main => exact firstChar_append "main_file/" (t ++ e) 'm' rfl
  | supplementary =>
    exact firstChar_append _ _ _ (firstChar_append _ _ _ (firstChar_append "SI_file/" t 'S' rfl))
  | peer_review =>
    exact firstChar_append _ _ _ (firstChar_append _ _ _ (firstChar_append "PR_file/" t 'P' rfl))
  | comment_attachment =>
    exact firstChar_append _ _ _ (firstChar_append _ _ _ (firstChar_append "PR_file/" t 'P' rfl))
  | other =>
    show firstChar (filePath t "unknown" i c up e) = some 'o'
    rw [filePath_unknown_unfold]
    by_cases hb : basenameOf up = ""
    · rw [if_pos hb]
      exact firstChar_append _ _ _ (firstChar_append _ _ _ (firstChar_append "other/" t 'o' rfl))
    · rw [if_neg hb]
      exact firstChar_append _ _ _ (firstChar_append _ _ _ (firstChar_append "other/" t 'o' rfl))

theorem filePath_pr_ne_comment (t : String) (i₁ c₁ : Nat) (up₁ e₁ : String)
    (i₂ c₂ : Nat) (up₂ e₂ : String) :
    filePath t "peer_review" i₁ c₁ up₁ e₁ ≠ filePath t "comment_attachment" i₂ c₂ up₂ e₂ := by
  rw [filePath_pr_unfold, filePath_comment_unfold]
  intro h
  have h2 := string_append_cancel_left h
  exact ne_of_firstChar_ne
    (firstChar_append _ _ _ (firstChar_append "pr_" (natStr i₁) 'p' rfl))
    (firstChar_append _ _ _ (firstChar_append _ _ _
      (firstChar_append _ _ _ (firstChar_append "comment_" (natStr c₂) 'c' rfl))))
    (by decide) h2

/-- A decimal numeral followed by a dot-initial extension determines the
numeral: the core of per-role index injectivity. -/
theorem natStr_append_inj (i j : Nat) (e₁ e₂ : String)
    (h₁ : firstChar e₁ = some '.') (h₂ : firstChar e₂ = some '.')
    (h : (natStr i).data ++ e₁.data = (natStr j).data ++ e₂.data) : i = j ∧ e₁ = e₂ := by
  have hh₁ : e₁.data.head? = some '.' := h₁
  have hh₂ : e₂.data.head? = some '.' := h₂
  have hr₁ : ∀ ch, e₁.data.head? = some ch → ch.isDigit = false := by
    intro ch hch
    have := Option.some.inj (hh₁.symm.trans hch)
    rw [← this]; decide
  have hr₂ : ∀ ch, e₂.data.head? = some ch → ch.isDigit = false := by
    intro ch hch
    have := Option.some.inj (hh₂.symm.trans hch)
    rw [← this]; decide
  obtain ⟨ha, hb⟩ := digit_run_unique (natStr i).data (natStr j).data e₁.data e₂.data
    (fun ch hch => natStr_data_digits i ch hch) (fun ch hch => natStr_data_digits j ch hch)
    hr₁ hr₂ h
  exact ⟨natStr_injective i j (String.ext ha), String.ext hb⟩

theorem filePath_sup_index_inj (t : String) (i₁ c₁ : Nat) (up₁ e₁ : String)
    (i₂ c₂ : Nat) (up₂ e₂ : String)
    (h₁ : firstChar e₁ = some '.') (h₂ : firstChar e₂ = some '.')
    (h : filePath t "supplementary" i₁ c₁ up₁ e₁ = filePath t "supplementary" i₂ c₂ up₂ e₂) :
    i₁ = i₂ := by
  rw [filePath_sup_unfold, filePath_sup_unfold] at h
  have h2 := string_append_cancel_left h
  have h3 := congrArg String.data h2
  simp only [string_data_append, List.append_assoc, List.cons_append, List.singleton_append,
    List.nil_append, List.cons.injEq, eq_self_iff_true, true_and] at h3
  exact (natStr_append_inj i₁ i₂ e₁ e₂ h₁ h₂ h3).1

theorem filePath_pr_index_inj (t : String) (i₁ c₁ : Nat) (up₁ e₁ : String)
    (i₂ c₂ : Nat) (up₂ e₂ : String)
    (h₁ : firstChar e₁ = some '.') (h₂ : firstChar e₂ = some '.')
    (h : filePath t "peer_review" i₁ c₁ up₁ e₁ = filePath t "peer_review" i₂ c₂ up₂ e₂) :
    i₁ = i₂ := by
  rw [filePath_pr_unfold, filePath_pr_unfold] at h
  have h2 := string_append_cancel_left h
  have h3 := congrArg String.data h2
  simp only [string_data_append, List.append_assoc, List.cons_append, List.singleton_append,
    List.nil_append, List.cons.injEq, eq_self_iff_true, true_and] at h3
  exact (natStr_append_inj i₁ i₂ e₁ e₂ h₁ h₂ h3).1

theorem filePath_comment_index_inj (t : String) (i₁ c₁ : Nat) (up₁ e₁ : String)
    (i₂ c₂ : Nat) (up₂ e₂ : String)
    (h₁ : firstChar e₁ = some '.') (h₂ : firstChar e₂ = some '.')
    (h : filePath t "comment_attachment" i₁ c₁ up₁ e₁ =
      filePath t "comment_attachment" i₂ c₂ up₂ e₂) :
    c₁ = c₂ ∧ i₁ = i₂ := by
  rw [filePath_comment_unfold, filePath_comment_unfold] at h
  have h2 := string_append_cancel_left h
  have h3 := congrArg String.data h2
  simp only [string_data_append, List.append_assoc, List.cons_append, List.singleton_append,
    List.nil_append, List.cons.injEq, eq_self_iff_true, true_and] at h3
  have hrun := digit_run_unique (natStr c₁).data (natStr c₂).data _ _
    (fun ch hch => natStr_data_digits c₁ ch hch) (fun ch hch => natStr_data_digits c₂ ch hch)
    (fun ch hch => by
      have := Option.some.inj ((rfl : (('_' :: ('a' :: 't' :: 't' :: 'a' :: 'c' :: 'h' :: '_' ::
        ((natStr i₁).data ++ e₁.data)))).head? = some '_').symm.trans hch)
      rw [← this]; decide)
    (fun ch hch => by
      have := Option.some.inj ((rfl : (('_' :: ('a' :: 't' :: 't' :: 'a' :: 'c' :: 'h' :: '_' ::
        ((natStr i₂).data ++ e₂.data)))).head? = some '_').symm.trans hch)
      rw [← this]; decide)
    h3
  refine ⟨natStr_injective c₁ c₂ (String.ext hrun.1), ?_⟩
  have h4 := hrun.2
  simp only [List.cons.injEq, eq_self_iff_true, true_and] at h4
  exact (natStr_append_inj i₁ i₂ e₁ e₂ h₁ h₂ h4).1

theorem filePath_other_empty_index_inj (t : String) (i₁ c₁ : Nat) (up₁ e₁ : String)
    (i₂ c₂ : Nat) (up₂ e₂ : String)
    (hb₁ : basenameOf up₁ = "") (hb₂ : basenameOf up₂ = "")
    (h₁ : firstChar e₁ = some '.') (h₂ : firstChar e₂ = some '.')
    (h : filePath t "unknown" i₁ c₁ up₁ e₁ = filePath t "unknown" i₂ c₂ up₂ e₂) :
    i₁ = i₂ := by
  rw [filePath_unknown_unfold, filePath_unknown_unfold, if_pos hb₁, if_pos hb₂] at h
  have h2 := string_append_cancel_left h
  have h3 := congrArg String.data h2
  simp only [string_data_append, List.append_assoc, List.cons_append, List.singleton_append,
    List.nil_append, List.cons.injEq, eq_self_iff_true, true_and] at h3
  exact (natStr_append_inj i₁ i₂ e₁ e₂ h₁ h₂ h3).1

/-- C1, counterexample: the claim's universal no-collision statement fails —
two `main`-role requests for the same track id with the different position
indices 0 and 1 receive the identical path `main_file/T1.pdf`, because the
`main` branch of `file_path` ignores the position index. -/
theorem filePath_claim_counterexample :
    (0 : Nat) ≠ 1 ∧
      filePath "T1" "main" 0 0 "" ".pdf" = filePath "T1" "main" 1 0 "" ".pdf" :=
  ⟨by decide, rfl⟩

/-- C1 (amended): `file_path` returns exactly the spec table's pattern for
each role (with any unrecognized `file_type` treated as `other`), and paths
are distinct for two requests with the same track id whenever the roles
differ, or the role uses the position index in the path (`supplementary`,
`peer_review`, `comment_attachment` — the latter also separating distinct
comment indices, and `other` when no URL basename is available); the `main`
role ignores the position index, and the `other` role with a non-empty URL
basename uses only that basename.  Extensions here are resolved extensions,
which always begin with a dot. -/
theorem filePath_patterns_and_distinct :
    (∀ t i c up e, filePath t "main" i c up e = "main_file/" ++ t ++ e) ∧
    (∀ t i c up e,
      filePath t "supplementary" i c up e = "SI_file/" ++ t ++ "/sup_" ++ natStr i ++ e) ∧
    (∀ t i c up e,
      filePath t "peer_review" i c up e = "PR_file/" ++ t ++ "/pr_" ++ natStr i ++ e) ∧
    (∀ t i c up e, filePath t "comment_attachment" i c up e =
      "PR_file/" ++ t ++ "/comment_" ++ natStr c ++ "_attach_" ++ natStr i ++ e) ∧
    (∀ t ft i c up e, ft ≠ "main" → ft ≠ "supplementary" → ft ≠ "peer_review" →
      ft ≠ "comment_attachment" → filePath t ft i c up e =
        (if basenameOf up = "" then "other/" ++ t ++ "/file_" ++ natStr i ++ e
         else "other/" ++ t ++ "/" ++ basenameOf up)) ∧
    (∀ (r₁ r₂ : FileRole) t i₁ c₁ up₁ e₁ i₂ c₂ up₂ e₂, r₁ ≠ r₂ →
      filePath t r₁.metaString i₁ c₁ up₁ e₁ ≠ filePath t r₂.metaString i₂ c₂ up₂ e₂) ∧
    (∀ t i₁ c₁ up₁ e₁ i₂ c₂ up₂ e₂, firstChar e₁ = some '.' → firstChar e₂ = some '.' →
      i₁ ≠ i₂ →
      filePath t "supplementary" i₁ c₁ up₁ e₁ ≠ filePath t "supplementary" i₂ c₂ up₂ e₂) ∧
    (∀ t i₁ c₁ up₁ e₁ i₂ c₂ up₂ e₂, firstChar e₁ = some '.' → firstChar e₂ = some '.' →
      i₁ ≠ i₂ →
      filePath t "peer_review" i₁ c₁ up₁ e₁ ≠ filePath t "peer_review" i₂ c₂ up₂ e₂) ∧
    (∀ t i₁ c₁ up₁ e₁ i₂ c₂ up₂ e₂, firstChar e₁ = some '.' → firstChar e₂ = some '.' →
      (c₁, i₁) ≠ (c₂, i₂) →
      filePath t "comment_attachment" i₁ c₁ up₁ e₁ ≠
        filePath t "comment_attachment" i₂ c₂ up₂ e₂) ∧
    (∀ t i₁ c₁ up₁ e₁ i₂ c₂ up₂ e₂, basenameOf up₁ = "" → basenameOf up₂ = "" →
      firstChar e₁ = some '.' → firstChar e₂ = some '.' → i₁ ≠ i₂ →
      filePath t "unknown" i₁ c₁ up₁ e₁ ≠ filePath t "unknown" i₂ c₂ up₂ e₂) := by
  refine ⟨?_, ?_, ?_, ?_, ?_, ?_, ?_, ?_, ?_, ?_⟩
  · intro t i c up e
    rw [filePath_main_unfold]
    apply String.ext
    simp only [string_data_append, List.append_assoc]
  · intro t i c up e
    rw [filePath_sup_unfold]
    apply String.ext
    simp only [string_data_append, List.append_assoc, List.cons_append, List.singleton_append,
      List.nil_append]
  · intro t i c up e
    rw [filePath_pr_unfold]
    apply String.ext
    simp only [string_data_append, List.append_assoc, List.cons_append, List.singleton_append,
      List.nil_append]
  · intro t i c up e
    rw [filePath_comment_unfold]
    apply String.ext
    simp only [string_data_append, List.append_assoc, List.cons_append, List.singleton_append,
      List.nil_append]
  · intro t ft i c up e h1 h2 h3 h4
    have hstep : filePath t ft i c up e =
        (if basenameOf up = "" then "other/" ++ t ++ "/" ++ ("file_" ++ natStr i ++ e)
         else "other/" ++ t ++ "/" ++ basenameOf up) := by
      unfold filePath
      rw [if_neg h1, if_neg h2, if_neg h3, if_neg h4]
    rw [hstep]
    by_cases hb : basenameOf up = ""
    · rw [if_pos hb, if_pos hb]
      apply String.ext
      simp only [string_data_append, List.append_assoc, List.cons_append, List.singleton_append,
        List.nil_append]
    · rw [if_neg hb, if_neg hb]
  · intro r₁ r₂ t i₁ c₁ up₁ e₁ i₂ c₂ up₂ e₂ hne
    cases r₁ <;> cases r₂ <;>
      first
      | exact absurd rfl hne
      | exact filePath_pr_ne_comment t i₁ c₁ up₁ e₁ i₂ c₂ up₂ e₂
      | exact fun hh =>
          filePath_pr_ne_comment t i₂ c₂ up₂ e₂ i₁ c₁ up₁ e₁ hh.symm
      | exact ne_of_firstChar_ne (firstChar_filePath_role _ t i₁ c₁ up₁ e₁)
          (firstChar_filePath_role _ t i₂ c₂ up₂ e₂) (by decide)
  · intro t i₁ c₁ up₁ e₁ i₂ c₂ up₂ e₂ h₁ h₂ hne h
    exact hne (filePath_sup_index_inj t i₁ c₁ up₁ e₁ i₂ c₂ up₂ e₂ h₁ h₂ h)
  · intro t i₁ c₁ up₁ e₁ i₂ c₂ up₂ e₂ h₁ h₂ hne h
    exact hne (filePath_pr_index_inj t i₁ c₁ up₁ e₁ i₂ c₂ up₂ e₂ h₁ h₂ h)
  · intro t i₁ c₁ up₁ e₁ i₂ c₂ up₂ e₂ h₁ h₂ hne h
    obtain ⟨hc, hi⟩ := filePath_comment_index_inj t i₁ c₁ up₁ e₁ i₂ c₂ up₂ e₂ h₁ h₂ h
    exact hne (by rw [hc, hi])
  · intro t i₁ c₁ up₁ e₁ i₂ c₂ up₂ e₂ hb₁ hb₂ h₁ h₂ hne h
    exact hne (filePath_other_empty_index_inj t i₁ c₁ up₁ e₁ i₂ c₂ up₂ e₂ hb₁ hb₂ h₁ h₂ h)

/-- C1, witness: the amended theorem instantiated at the spec's own
examples — `compute_path("T1", supplementary, 2, ".pdf") = "SI_file/T1/sup_2.pdf"`,
and the same index under `peer_review` yields a different path. -/
theorem filePath_patterns_and_distinct_witness :
    filePath "T1" "supplementary" 2 0 "/x/y" ".pdf" = "SI_file/T1/sup_2.pdf" ∧
    filePath "T1" "supplementary" 2 0 "/x/y" ".pdf" ≠
      filePath "T1" "peer_review" 2 0 "/x/y" ".pdf" ∧
    filePath "T1" "supplementary" 2 0 "/x/y" ".pdf" ≠
      filePath "T1" "supplementary" 3 0 "/x/y" ".pdf" := by
  refine ⟨?_, ?_, ?_⟩
  · rw [filePath_patterns_and_distinct.2.1 "T1" 2 0 "/x/y" ".pdf"]
    rfl
  · exact filePath_patterns_and_distinct.2.2.2.2.2.1 FileRole.supplementary FileRole.peer_review
      "T1" 2 0 "/x/y" ".pdf" 2 0 "/x/y" ".pdf" (by decide)
  · exact filePath_patterns_and_distinct.2.2.2.2.2.2.1 "T1" 2 0 "/x/y" ".pdf" 3 0 "/x/y" ".pdf"
      rfl rfl (by decide)

/-! ## Extension resolution (claim C8) -/

/-- C8 (confirmed): the resolved extension is determined in exactly the
spec's order — the extension present in the URL path when there is one
(lower-cased); otherwise the first match of the fixed MIME table against the
response Content-Type; otherwise the generic `.bin` default (also when there
is no response at all). -/
theorem getFileExtension_resolution_order (urlPath : String) (contentType : Option String) :
    (splitextExt urlPath ≠ "" →
      getFileExtension urlPath contentType = strLower (splitextExt urlPath)) ∧
    (splitextExt urlPath = "" → ∀ ct e, contentType = some ct →
      lookupMime mimeExtMap (strLower ct) = some e →
      getFileExtension urlPath contentType = e) ∧
    (splitextExt urlPath = "" → contentType = none →
      getFileExtension urlPath contentType = ".bin") ∧
    (splitextExt urlPath = "" → ∀ ct, contentType = some ct →
      lookupMime mimeExtMap (strLower ct) = none →
      getFileExtension urlPath contentType = ".bin") := by
  have hempty : splitextExt "" = "" := rfl
  refine ⟨?_, ?_, ?_, ?_⟩
  · intro hne
    have hup : urlPath ≠ "" := by
      intro hz
      rw [hz, hempty] at hne
      exact hne rfl
    unfold getFileExtension
    rw [if_pos hup, if_pos hne]
  · intro hz ct e hct hlook
    unfold getFileExtension
    by_cases hup : urlPath = ""
    · subst hup
      rw [if_neg (by simp), hct]
      simp only [hlook]
    · rw [if_pos hup, if_neg (by simpa using hz), hct]
      simp only [hlook]
  · intro hz hct
    unfold getFileExtension
    by_cases hup : urlPath = ""
    · subst hup
      rw [if_neg (by simp), hct]
    · rw [if_pos hup, if_neg (by simpa using hz), hct]
  · intro hz ct hct hlook
    unfold getFileExtension
    by_cases hup : urlPath = ""
    · subst hup
      rw [if_neg (by simp), hct]
      simp only [hlook]
    · rw [if_pos hup, if_neg (by simpa using hz), hct]
      simp only [hlook]

/-- C8, witness: a URL path carrying `.PDF` wins over a `text/plain`
Content-Type; without a URL extension the MIME table maps
`application/pdf; charset=x` to `.pdf`; an unknown type defaults to
`.bin`. -/
theorem getFileExtension_resolution_order_witness :
    getFileExtension "/docs/paper.PDF" (some "text/plain") = ".pdf" ∧
    getFileExtension "/docs/paper" (some "Application/PDF; charset=x") = ".pdf" ∧
    getFileExtension "/docs/paper" (some "application/octet-stream") = ".bin" ∧
    getFileExtension "" none = ".bin" := by
  refine ⟨?_, ?_, ?_, ?_⟩
  · rw [(getFileExtension_resolution_order "/docs/paper.PDF" (some "text/plain")).1
      (by decide)]
    rfl
  · exact (getFileExtension_resolution_order "/docs/paper"
      (some "Application/PDF; charset=x")).2.1 rfl _ _ rfl (by decide)
  · exact (getFileExtension_resolution_order "/docs/paper"
      (some "application/octet-stream")).2.2.2 rfl _ rfl (by decide)
  · exact (getFileExtension_resolution_order "" none).2.2.1 rfl rfl

theorem adjustDelay_counters (minD maxD : ℚ) (s : DomainStats) :
    (adjustDelay minD maxD s).total_requests = s.total_requests ∧
    (adjustDelay minD maxD s).failed_requests = s.failed_requests ∧
    (adjustDelay minD maxD s).avg_response_time = s.avg_response_time := by
  unfold adjustDelay
  split
  · exact ⟨rfl, rfl, rfl⟩
  · split
    · split
      · exact ⟨rfl, rfl, rfl⟩
      · exact ⟨rfl, rfl, rfl⟩
    · exact ⟨rfl, rfl, rfl⟩

theorem adjustDelay_cases (minD maxD : ℚ) (s : DomainStats) :
    (errorRate s > 0.2 →
      (adjustDelay minD maxD s).current_delay = min (s.current_delay * 1.5) maxD) ∧
    (¬(errorRate s > 0.2) → errorRate s < 0.05 → s.avg_response_time < 1.0 →
      0 ≤ minD → minD ≤ s.current_delay →
      (adjustDelay minD maxD s).current_delay = max (s.current_delay * 0.9) minD) ∧
    (¬(errorRate s > 0.2) → ¬(errorRate s < 0.05 ∧ s.avg_response_time < 1.0) →
      (adjustDelay minD maxD s).current_delay = s.current_delay) := by
  refine ⟨?_, ?_, ?_⟩
  · intro h
    unfold adjustDelay
    rw [if_pos h]
  · intro h h2 h3 h0 hmin
    unfold adjustDelay
    rw [if_neg h, if_pos ⟨h2, h3⟩]
    by_cases hlt : max (s.current_delay * 0.9) minD < s.current_delay
    · rw [if_pos hlt]
    · rw [if_neg hlt]
      have hle : max (s.current_delay * 0.9) minD ≤ s.current_delay :=
        max_le (by linarith) hmin
      exact le_antisymm (not_lt.mp hlt) hle
  · intro h h2
    unfold adjustDelay
    rw [if_neg h, if_neg h2]

theorem adjustDelay_delay_mem (minD maxD : ℚ) (s : DomainStats) (h0 : 0 ≤ minD)
    (h1 : minD ≤ maxD) (hc : minD ≤ s.current_delay ∧ s.current_delay ≤ maxD) :
    minD ≤ (adjustDelay minD maxD s).current_delay ∧
      (adjustDelay minD maxD s).current_delay ≤ maxD := by
  unfold adjustDelay
  split
  · exact ⟨le_min (by nlinarith [hc.1, hc.2]) h1, min_le_right _ _⟩
  · split
    · split
      · exact ⟨le_max_right _ _, max_le (by nlinarith [hc.1, hc.2]) h1⟩
      · exact hc
    · exact hc

theorem recordSuccess_eq_adjust (minD maxD rt : ℚ) (s : DomainStats) :
    recordSuccess true minD maxD rt s = adjustDelay minD maxD
      (if s.avg_response_time = 0 then
        { s with total_requests := s.total_requests + 1,
                 success_requests := s.success_requests + 1, avg_response_time := rt }
       else
        { s with total_requests := s.total_requests + 1,
                 success_requests := s.success_requests + 1,
                 avg_response_time := (s.avg_response_time + rt) / 2 }) := rfl

theorem recordFailure_eq_adjust (minD maxD : ℚ) (s : DomainStats) :
    recordFailure true minD maxD s = adjustDelay minD maxD
      { s with total_requests := s.total_requests + 1,
               failed_requests := s.failed_requests + 1 } := rfl

theorem applyOutcome_delay_mem (minD maxD : ℚ) (h0 : 0 ≤ minD) (h1 : minD ≤ maxD)
    (s : DomainStats) (o : ReqOutcome)
    (hc : minD ≤ s.current_delay ∧ s.current_delay ≤ maxD) :
    minD ≤ (applyOutcome true minD maxD s o).current_delay ∧
      (applyOutcome true minD maxD s o).current_delay ≤ maxD := by
  cases o with
  | ok rt =>
    rw [show applyOutcome true minD maxD s (ReqOutcome.ok rt) =
        recordSuccess true minD maxD rt s from rfl, recordSuccess_eq_adjust]
    split <;> exact adjustDelay_delay_mem minD maxD _ h0 h1 hc
  | err =>
    rw [show applyOutcome true minD maxD s ReqOutcome.err =
        recordFailure true minD maxD s from rfl, recordFailure_eq_adjust]
    exact adjustDelay_delay_mem minD maxD _ h0 h1 hc

theorem runOutcomes_delay_mem (minD maxD : ℚ) (h0 : 0 ≤ minD) (h1 : minD ≤ maxD)
    (outs : List ReqOutcome) (s : DomainStats)
    (hc : minD ≤ s.current_delay ∧ s.current_delay ≤ maxD) :
    minD ≤ (runOutcomes true minD maxD s outs).current_delay ∧
      (runOutcomes true minD maxD s outs).current_delay ≤ maxD := by
  induction outs generalizing s with
  | nil => exact hc
  | cons o rest ih =>
    exact ih (applyOutcome true minD maxD s o)
      (applyOutcome_delay_mem minD maxD h0 h1 s o hc)

theorem adjustDelay_claim (minD maxD : ℚ) (u : DomainStats) (hpos : 0 < u.total_requests) :
    (((adjustDelay minD maxD u).failed_requests : ℚ) /
        ((adjustDelay minD maxD u).total_requests : ℚ) > 0.2 →
      (adjustDelay minD maxD u).current_delay = min (u.current_delay * 1.5) maxD) ∧
    (¬(((adjustDelay minD maxD u).failed_requests : ℚ) /
        ((adjustDelay minD maxD u).total_requests : ℚ) > 0.2) →
      ((adjustDelay minD maxD u).failed_requests : ℚ) /
        ((adjustDelay minD maxD u).total_requests : ℚ) < 0.05 →
      (adjustDelay minD maxD u).avg_response_time < 1.0 →
      0 ≤ minD → minD ≤ u.current_delay →
      (adjustDelay minD maxD u).current_delay = max (u.current_delay * 0.9) minD) ∧
    (¬(((adjustDelay minD maxD u).failed_requests : ℚ) /
        ((adjustDelay minD maxD u).total_requests : ℚ) > 0.2) →
      ¬(((adjustDelay minD maxD u).failed_requests : ℚ) /
          ((adjustDelay minD maxD u).total_requests : ℚ) < 0.05 ∧
        (adjustDelay minD maxD u).avg_response_time < 1.0) →
      (adjustDelay minD maxD u).current_delay = u.current_delay) := by
  obtain ⟨ht, hf, ha⟩ := adjustDelay_counters minD maxD u
  have her : ((adjustDelay minD maxD u).failed_requests : ℚ) /
      ((adjustDelay minD maxD u).total_requests : ℚ) = errorRate u := by
    rw [ht, hf, errorRate, if_pos hpos]
  obtain ⟨c1, c2, c3⟩ := adjustDelay_cases minD maxD u
  refine ⟨?_, ?_, ?_⟩
  · intro h
    rw [her] at h
    exact c1 h
  · intro h h2 h3 h0 hmin
    rw [her] at h h2
    rw [ha] at h3
    exact c2 h h2 h3 h0 hmin
  · intro h h2
    rw [her] at h
    rw [her, ha] at h2
    exact c3 h h2

/-- C2 (amended): after each `record_success`/`record_failure` in adaptive
mode, with `error_rate = failed_requests / total_requests` taken on the
post-call counters: an error rate above 20% sets the delay to
`min(1.5 × previous_delay, max_delay)`; else an error rate below 5% with
average response time below one second sets it to
`max(0.9 × previous_delay, min_delay)` (stated for states with
`0 ≤ min_delay ≤ current_delay`, which covers every state reachable from the
initial one); otherwise the delay is unchanged.  Consequently, for
`0 ≤ min_delay ≤ max_delay`, every sequence of recorded outcomes starting
from `current_delay = min_delay` keeps the delay within
`[min_delay, max_delay]`.  The non-negativity hypothesis is forced by the
counterexample: a negative `min_delay` escapes the interval. -/
theorem rateLimiter_adaptive_policy :
    (∀ (minD maxD : ℚ) (s : DomainStats) (o : ReqOutcome),
      (((applyOutcome true minD maxD s o).failed_requests : ℚ) /
          ((applyOutcome true minD maxD s o).total_requests : ℚ) > 0.2 →
        (applyOutcome true minD maxD s o).current_delay = min (s.current_delay * 1.5) maxD) ∧
      (¬(((applyOutcome true minD maxD s o).failed_requests : ℚ) /
          ((applyOutcome true minD maxD s o).total_requests : ℚ) > 0.2) →
        ((applyOutcome true minD maxD s o).failed_requests : ℚ) /
          ((applyOutcome true minD maxD s o).total_requests : ℚ) < 0.05 →
        (applyOutcome true minD maxD s o).avg_response_time < 1.0 →
        0 ≤ minD → minD ≤ s.current_delay →
        (applyOutcome true minD maxD s o).current_delay = max (s.current_delay * 0.9) minD) ∧
      (¬(((applyOutcome true minD maxD s o).failed_requests : ℚ) /
          ((applyOutcome true minD maxD s o).total_requests : ℚ) > 0.2) →
        ¬(((applyOutcome true minD maxD s o).failed_requests : ℚ) /
            ((applyOutcome true minD maxD s o).total_requests : ℚ) < 0.05 ∧
          (applyOutcome true minD maxD s o).avg_response_time < 1.0) →
        (applyOutcome true minD maxD s o).current_delay = s.current_delay)) ∧
    (∀ (minD maxD : ℚ), 0 ≤ minD → minD ≤ maxD → ∀ outs : List ReqOutcome,
      minD ≤ (runOutcomes true minD maxD (initDomainStats minD) outs).current_delay ∧
        (runOutcomes true minD maxD (initDomainStats minD) outs).current_delay ≤ maxD) := by
  constructor
  · intro minD maxD s o
    cases o with
    | ok rt =>
      rw [show applyOutcome true minD maxD s (ReqOutcome.ok rt) =
          recordSuccess true minD maxD rt s from rfl, recordSuccess_eq_adjust]
      split
      · exact adjustDelay_claim minD maxD _ (Nat.succ_pos _)
      · exact adjustDelay_claim minD maxD _ (Nat.succ_pos _)
    | err =>
      rw [show applyOutcome true minD maxD s ReqOutcome.err =
          recordFailure true minD maxD s from rfl, recordFailure_eq_adjust]
      exact adjustDelay_claim minD maxD _ (Nat.succ_pos _)
  · intro minD maxD h0 h1 outs
    exact runOutcomes_delay_mem minD maxD h0 h1 outs (initDomainStats minD) ⟨le_rfl, h1⟩

/-- C2, counterexample: the claim's clamping statement assumes only
`min_delay ≤ max_delay`; with the negative configuration
`min_delay = -1, max_delay = 5` a single recorded failure drives the delay
to `-1.5`, strictly below `min_delay`, so the delay does not stay within
`[min_delay, max_delay]`. -/
theorem rateLimiter_bound_counterexample :
    (-1 : ℚ) ≤ 5 ∧
      (runOutcomes true (-1) 5 (initDomainStats (-1)) [ReqOutcome.err]).current_delay = -1.5 ∧
      ¬((-1 : ℚ) ≤ -1.5) := by
  refine ⟨by norm_num, ?_, by norm_num⟩
  show (recordFailure true (-1) 5 (initDomainStats (-1))).current_delay = -1.5
  rw [recordFailure_eq_adjust]
  unfold adjustDelay errorRate initDomainStats
  norm_num [min_def]

/-- C2, witness: with `min_delay = 1, max_delay = 5`, the first failure has
error rate 1 > 0.2 and raises the delay to `min(1.5 × 1, 5) = 1.5`; and the
fold over the outcome list `[err, ok 0.5]` stays within `[1, 5]`. -/
theorem rateLimiter_adaptive_policy_witness :
    (runOutcomes true 1 5 (initDomainStats 1) [ReqOutcome.err]).current_delay = 1.5 ∧
      1 ≤ (runOutcomes true 1 5 (initDomainStats 1)
          [ReqOutcome.err, ReqOutcome.ok 0.5]).current_delay ∧
      (runOutcomes true 1 5 (initDomainStats 1)
          [ReqOutcome.err, ReqOutcome.ok 0.5]).current_delay ≤ 5 := by
  refine ⟨?_, ?_, ?_⟩
  · have h := (rateLimiter_adaptive_policy.1 1 5 (initDomainStats 1) ReqOutcome.err).1 (by
      rw [show applyOutcome true 1 5 (initDomainStats 1) ReqOutcome.err =
          recordFailure true 1 5 (initDomainStats 1) from rfl, recordFailure_eq_adjust,
        (adjustDelay_counters 1 5 _).2.1, (adjustDelay_counters 1 5 _).1]
      norm_num [initDomainStats])
    show (applyOutcome true 1 5 (initDomainStats 1) ReqOutcome.err).current_delay = 1.5
    rw [h]
    norm_num [initDomainStats, min_def]
  · exact (rateLimiter_adaptive_policy.2 1 5 (by norm_num) (by norm_num)
      [ReqOutcome.err, ReqOutcome.ok 0.5]).1
  · exact (rateLimiter_adaptive_policy.2 1 5 (by norm_num) (by norm_num)
      [ReqOutcome.err, ReqOutcome.ok 0.5]).2

theorem getSession_mem_valid (now : ℚ) (m : SessionManager) (platform : String)
    (account_id : Option String) (s : SessionData)
    (hs : m.sessions (sessionKey platform account_id) = some s)
    (hv : isSessionValid now m.session_timeout s = true) :
    getSession now m platform account_id = (some s, m) := by
  unfold getSession
  simp only [hs, hv, if_true]

theorem loadFromFile_stale (now : ℚ) (m : SessionManager) (key : String)
    (hfile : ∀ s, m.fileStore key = some s →
      isSessionValid now m.session_timeout s = false) :
    (loadFromFile now m key).fst = none := by
  unfold loadFromFile
  cases hf : m.fileStore key with
  | some s => simp [hfile s hf]
  | none => rfl

theorem getSession_all_stale (now : ℚ) (m : SessionManager) (platform : String)
    (account_id : Option String)
    (hmem : ∀ s, m.sessions (sessionKey platform account_id) = some s →
      isSessionValid now m.session_timeout s = false)
    (hfile : ∀ s, m.fileStore (sessionKey platform account_id) = some s →
      isSessionValid now m.session_timeout s = false) :
    (getSession now m platform account_id).fst = none := by
  unfold getSession
  dsimp only
  cases hs : m.sessions (sessionKey platform account_id) with
  | some s =>
    simp only [hmem s hs, Bool.false_eq_true, if_false]
    exact loadFromFile_stale now _ _ hfile
  | none =>
    exact loadFromFile_stale now _ _ hfile

theorem saveSession_sessions_at (now : ℚ) (m : SessionManager) (platform : String)
    (cookies : List (String × String)) (account_id : Option String)
    (metadata : List (String × String)) (k : String)
    (hk : k = sessionKey platform account_id) :
    (saveSession now m platform cookies account_id metadata).sessions k =
      some { platform := platform, account_id := account_id, cookies := cookies,
             created_at := now, last_used := now, metadata := metadata } := by
  unfold saveSession
  simp only [hk, if_pos]

theorem saveSession_fileStore_at (now : ℚ) (m : SessionManager) (platform : String)
    (cookies : List (String × String)) (account_id : Option String)
    (metadata : List (String × String)) (k : String)
    (hk : k = sessionKey platform account_id) :
    (saveSession now m platform cookies account_id metadata).fileStore k =
      some { platform := platform, account_id := account_id, cookies := cookies,
             created_at := now, last_used := now, metadata := metadata } := by
  unfold saveSession
  simp only [hk, if_pos]

/-- C4, counterexample: with the configuration `timeout_seconds = 0` a
`save_session` followed immediately by `get_session` (same instant, age 0)
returns no session, because validity is the strict test `age < timeout` —
contradicting the claim's unconditional round-trip sentence. -/
theorem session_roundtrip_counterexample :
    (getSession 10
        (saveSession 10 (emptySessionManager 0) "platformA" [("sid", "abc")] none [])
        "platformA" none).fst = none := by
  apply getSession_all_stale
  · intro s hs
    rw [saveSession_sessions_at 10 _ "platformA" _ none [] _ rfl] at hs
    cases hs
    simp [isSessionValid, emptySessionManager, saveSession]
  · intro s hs
    rw [saveSession_fileStore_at 10 _ "platformA" _ none [] _ rfl] at hs
    cases hs
    simp [isSessionValid, emptySessionManager, saveSession]

/-- C4 (amended): for a positive configured timeout, `save_session` followed
immediately by `get_session` under the same key returns the saved bundle
(cookies included); and as soon as the session's age `now − last_used`
reaches or exceeds the timeout, `get_session` returns no session.  The
positivity hypothesis is forced by the counterexample
(`timeout_seconds = 0` already fails the round-trip at age 0). -/
theorem session_roundtrip (m : SessionManager) (platform : String)
    (cookies : List (String × String)) (account : Option String)
    (meta : List (String × String)) (now t2 : ℚ) :
    (0 < m.session_timeout →
      ∃ s, (getSession now (saveSession now m platform cookies account meta)
          platform account).fst = some s ∧ s.cookies = cookies) ∧
    (m.session_timeout ≤ t2 - now →
      (getSession t2 (saveSession now m platform cookies account meta)
          platform account).fst = none) := by
  constructor
  · intro htm
    refine ⟨{ platform := platform, account_id := account, cookies := cookies,
              created_at := now, last_used := now, metadata := meta }, ?_, rfl⟩
    have h := getSession_mem_valid now
      (saveSession now m platform cookies account meta) platform account _
      (saveSession_sessions_at now m platform cookies account meta _ rfl) ?valid
    · rw [h]
    case valid =>
      simp only [isSessionValid, saveSession, decide_eq_true_eq]
      simpa using htm
  · intro ht2
    apply getSession_all_stale
    · intro s hs
      rw [saveSession_sessions_at now m platform cookies account meta _ rfl] at hs
      cases hs
      simp only [isSessionValid, saveSession, decide_eq_false_iff_not, not_lt]
      simpa using ht2
    · intro s hs
      rw [saveSession_fileStore_at now m platform cookies account meta _ rfl] at hs
      cases hs
      simp only [isSessionValid, saveSession, decide_eq_false_iff_not, not_lt]
      simpa using ht2

/-- C4, witness: the round-trip at the default timeout 3600 — saving at
instant 0 and reading back at instant 0 yields the cookies; reading at
instant 3600 (age = timeout) yields nothing. -/
theorem session_roundtrip_witness :
    (∃ s, (getSession 0
        (saveSession 0 (emptySessionManager 3600) "platformA" [("sid", "abc")] none [])
        "platformA" none).fst = some s ∧ s.cookies = [("sid", "abc")]) ∧
    (getSession 3600
        (saveSession 0 (emptySessionManager 3600) "platformA" [("sid", "abc")] none [])
        "platformA" none).fst = none := by
  constructor
  · exact (session_roundtrip (emptySessionManager 3600) "platformA" [("sid", "abc")]
      none [] 0 3600).1 (by norm_num [emptySessionManager])
  · exact (session_roundtrip (emptySessionManager 3600) "platformA" [("sid", "abc")]
      none [] 0 3600).2 (by norm_num [emptySessionManager])

/-- C10, counterexample: the claimed key identity fails for the empty
account string — Python's truthiness test `if account_id` treats `""` like
`None`, so `("p", account="")` maps to key `"p"` while
`(platform="p_", no account)` maps to `"p_"`. -/
theorem sessionKey_alias_counterexample :
    sessionKey "p" (some "") = "p" ∧
      sessionKey ("p" ++ "_" ++ "") none = "p_" ∧ ("p" : String) ≠ "p_" :=
  ⟨rfl, rfl, by decide⟩

/-- C10 (amended): for every platform `p` and non-empty account `a`, the
session key of `(platform = p, account = a)` equals the key of
`(platform = p ++ "_" ++ a, no account)`; consequently a bundle saved under
one argument form is read back by `get_session` under the other (given a
positive timeout), and `clear_session` under one form deletes the other's
entry from both stores. -/
theorem sessionKey_alias (p a : String) (ha : a ≠ "") :
    sessionKey p (some a) = sessionKey (p ++ "_" ++ a) none ∧
    (∀ (m : SessionManager) (cookies meta : List (String × String)) (now : ℚ),
      0 < m.session_timeout →
      ∃ s, (getSession now (saveSession now m (p ++ "_" ++ a) cookies none meta)
          p (some a)).fst = some s ∧ s.cookies = cookies) ∧
    (∀ m : SessionManager,
      (clearSession m p (some a)).sessions (sessionKey (p ++ "_" ++ a) none) = none ∧
      (clearSession m p (some a)).fileStore (sessionKey (p ++ "_" ++ a) none) = none) := by
  have hkey : sessionKey p (some a) = sessionKey (p ++ "_" ++ a) none := by
    show (if a ≠ "" then p ++ "_" ++ a else p) = p ++ "_" ++ a
    rw [if_pos ha]
  refine ⟨hkey, ?_, ?_⟩
  · intro m cookies meta now htm
    refine ⟨{ platform := p ++ "_" ++ a, account_id := none, cookies := cookies,
              created_at := now, last_used := now, metadata := meta }, ?_, rfl⟩
    have h := getSession_mem_valid now
      (saveSession now m (p ++ "_" ++ a) cookies none meta) p (some a) _
      (saveSession_sessions_at now m (p ++ "_" ++ a) cookies none meta _ hkey) ?valid2
    · rw [h]
    case valid2 =>
      simp only [isSessionValid, saveSession, decide_eq_true_eq]
      simpa using htm
  · intro m
    constructor
    · unfold clearSession
      simp only [← hkey, if_pos]
    · unfold clearSession
      simp only [← hkey, if_pos]

/-- C10, witness: saving under platform `"plat_acct"` with no account and
reading under platform `"plat"` account `"acct"` returns the same cookies;
clearing under the second form empties the first form's key. -/
theorem sessionKey_alias_witness :
    sessionKey "plat" (some "acct") = sessionKey ("plat" ++ "_" ++ "acct") none ∧
    (∃ s, (getSession 0
        (saveSession 0 (emptySessionManager 3600) ("plat" ++ "_" ++ "acct")
          [("sid", "abc")] none [])
        "plat" (some "acct")).fst = some s ∧ s.cookies = [("sid", "abc")]) := by
  constructor
  · exact (sessionKey_alias "plat" "acct" (by decide)).1
  · exact (sessionKey_alias "plat" "acct" (by decide)).2.1 (emptySessionManager 3600)
      [("sid", "abc")] [] 0 (by norm_num [emptySessionManager])

/-! ## Proxy derived values (claim C6) -/

/-- C6, counterexample: for a proxy with one success, no failures and zero
response time the code's score is `1 × 70 + max(0, 30) = 100`, not the
claimed `0.7 × 1 + 0.3 × 1 = 1`: the claim misses the factor 100 (the
score lives on a 0–100 scale, as the source's docstring says). -/
theorem proxyScore_counterexample :
    ({ url := "u", protocol := "http", success_count := 1, fail_count := 0,
       last_used := none, last_success := none, response_time := 0,
       is_banned := false } : ProxyInfo).score = 100 ∧
    (7 / 10 : ℚ) *
        ({ url := "u", protocol := "http", success_count := 1, fail_count := 0,
           last_used := none, last_success := none, response_time := 0,
           is_banned := false } : ProxyInfo).success_rate +
        max 0 ((3 / 10) *
          (1 - ({ url := "u", protocol := "http", success_count := 1, fail_count := 0,
                  last_used := none, last_success := none, response_time := 0,
                  is_banned := false } : ProxyInfo).response_time / 3)) = 1 ∧
    (100 : ℚ) ≠ 1 := by
  refine ⟨?_, ?_, by norm_num⟩
  · norm_num [ProxyInfo.score, ProxyInfo.success_rate]
  · norm_num [ProxyInfo.success_rate]

/-- C6 (amended): `success_rate` is successes over total attempts (0 when
both counters are 0), and the composite score is `100 ×` the claimed
expression: `score = 100 × (0.7 × success_rate + max(0, 0.3 × (1 −
response_time/3)))`, i.e. `70 × success_rate + max(0, 30 − 10 ×
response_time)` on the source's 0–100 scale. -/
theorem proxyScore_formulas (p : ProxyInfo) :
    p.success_rate =
      (if p.success_count + p.fail_count = 0 then 0
       else (p.success_count : ℚ) / ((p.success_count : ℚ) + (p.fail_count : ℚ))) ∧
    p.score = 100 * ((7 / 10) * p.success_rate +
      max 0 ((3 / 10) * (1 - p.response_time / 3))) := by
  constructor
  · unfold ProxyInfo.success_rate
    rcases Nat.eq_zero_or_pos (p.success_count + p.fail_count) with h | h
    · rw [if_neg (by omega), if_pos h]
    · rw [if_pos h, if_neg (by omega)]
  · have key : max (0 : ℚ) (30 - p.response_time * 10) =
        100 * max 0 ((3 / 10) * (1 - p.response_time / 3)) := by
      rcases le_total (30 - p.response_time * 10) 0 with h | h
      · rw [max_eq_left h, max_eq_left (by linarith)]
        ring
      · rw [max_eq_right h, max_eq_right (by linarith)]
        ring
    unfold ProxyInfo.score
    rw [key]
    ring

/-! ## Proxy availability (claim C5) -/

/-- C5 (confirmed): `get_proxy()` returns `None` (it does not raise) when
the pool is empty, and when every proxy is banned and not past its cooldown
(strictly more than `ban_duration` since `last_used`; a banned proxy that
was never used also stays unavailable); and it returns some proxy as soon
as any banned proxy's cooldown has elapsed — regardless of its success
count. -/
theorem getProxy_availability (now : ℚ) (pool : ProxyPool) :
    (pool.proxies = [] → (getProxy now pool).fst = none) ∧
    ((∀ p ∈ pool.proxies, p.is_banned = true ∧
        ∀ t, p.last_used = some t → now - t ≤ pool.ban_duration) →
      (getProxy now pool).fst = none) ∧
    ((∃ p ∈ pool.proxies, p.is_banned = true ∧
        ∃ t, p.last_used = some t ∧ now - t > pool.ban_duration) →
      (getProxy now pool).fst.isSome = true) := by
  refine ⟨?_, ?_, ?_⟩
  · intro h
    simp [getProxy, h]
  · intro h
    have havail : pool.proxies.filter (proxyAvailable now pool.ban_duration) = [] := by
      rw [List.filter_eq_nil_iff]
      intro p hp
      obtain ⟨hb, ht⟩ := h p hp
      simp only [proxyAvailable, hb, Bool.not_true, Bool.false_or]
      cases hl : p.last_used with
      | some t =>
        simp only [Bool.not_eq_true, decide_eq_false_iff_not, not_lt]
        exact ht t hl
      | none => simp
    unfold getProxy
    by_cases hemp : pool.proxies.isEmpty
    · rw [if_pos hemp]
    · rw [if_neg hemp]
      dsimp only
      rw [havail]
      simp
  · rintro ⟨p, hp, hb, t, hlt, hgt⟩
    have hav : proxyAvailable now pool.ban_duration p = true := by
      simp only [proxyAvailable, hb, hlt, Bool.not_true, Bool.false_or]
      simpa using hgt
    have hmem : p ∈ pool.proxies.filter (proxyAvailable now pool.ban_duration) :=
      List.mem_filter.mpr ⟨hp, hav⟩
    have hne : pool.proxies.filter (proxyAvailable now pool.ban_duration) ≠ [] := by
      intro hz
      rw [hz] at hmem
      exact absurd hmem (List.not_mem_nil p)
    have hnp : pool.proxies ≠ [] := by
      intro hz
      rw [hz] at hp
      exact absurd hp (List.not_mem_nil p)
    unfold getProxy
    rw [if_neg (by simp [List.isEmpty_iff, hnp])]
    dsimp only
    rw [if_neg (by simp [List.isEmpty_iff, hne])]
    rfl

/-- C5, witness: an empty pool yields `None`; a single banned proxy still in
cooldown yields `None`; the same proxy with zero recorded successes becomes
selectable again once more than `ban_duration` seconds passed since
`last_used`. -/
theorem getProxy_availability_witness :
    (getProxy 10 emptyPoolA).fst = none ∧
    (getProxy 10 coolPoolA).fst = none ∧
    (getProxy 301 coolPoolA).fst.isSome = true := by
  refine ⟨?_, ?_, ?_⟩
  · exact (getProxy_availability 10 emptyPoolA).1 rfl
  · apply (getProxy_availability 10 coolPoolA).2.1
    intro p hp
    rw [show coolPoolA.proxies = [bannedProxyA] from rfl, List.mem_singleton] at hp
    subst hp
    refine ⟨rfl, ?_⟩
    intro t ht
    rw [show bannedProxyA.last_used = some 0 from rfl] at ht
    cases ht
    show (10 : ℚ) - 0 ≤ coolPoolA.ban_duration
    norm_num [coolPoolA]
  · apply (getProxy_availability 301 coolPoolA).2.2
    refine ⟨bannedProxyA, List.mem_singleton.mpr rfl, rfl, 0, rfl, ?_⟩
    show (301 : ℚ) - 0 > coolPoolA.ban_duration
    norm_num [coolPoolA]

/-! ## Proxy ban state machine (claims C3 and C9) -/

theorem applyFailure_url (maxF : Nat) (p : ProxyInfo) : (applyFailure maxF p).url = p.url := by
  unfold applyFailure
  dsimp only
  split <;> rfl

theorem applySuccess_url (now rt : ℚ) (p : ProxyInfo) : (applySuccess now rt p).url = p.url := by
  unfold applySuccess
  dsimp only
  split <;> rfl

theorem applyFailure_count (maxF : Nat) (p : ProxyInfo) :
    (applyFailure maxF p).fail_count = p.fail_count + 1 := by
  unfold applyFailure
  dsimp only
  split <;> rfl

theorem applySuccess_count (now rt : ℚ) (p : ProxyInfo) :
    (applySuccess now rt p).fail_count = p.fail_count := by
  unfold applySuccess
  dsimp only
  split <;> rfl

theorem applySuccess_banned (now rt : ℚ) (p : ProxyInfo) :
    (applySuccess now rt p).is_banned = false := by
  unfold applySuccess
  dsimp only
  split <;> rfl

theorem updateFirst_length (f : ProxyInfo → ProxyInfo) (url : String) :
    ∀ l : List ProxyInfo, (updateFirst f url l).length = l.length := by
  intro l
  induction l with
  | nil => rfl
  | cons p ps ih =>
    unfold updateFirst
    split
    · rfl
    · simp only [List.length_cons, ih]

theorem updateFirst_getD_hit (f : ProxyInfo → ProxyInfo) (url : String) :
    ∀ (l : List ProxyInfo) (i : Nat), i < l.length →
      (l.getD i dummyProxy).url = url →
      (∀ j, j < i → (l.getD j dummyProxy).url ≠ url) →
      (updateFirst f url l).getD i dummyProxy = f (l.getD i dummyProxy) := by
  intro l
  induction l with
  | nil =>
    intro i hi
    exact absurd hi (by simp)
  | cons p ps ih =>
    intro i hi hurl hfirst
    cases i with
    | zero =>
      unfold updateFirst
      rw [if_pos (show p.url = url from hurl)]
      rfl
    | succ j =>
      have hp : ¬p.url = url := hfirst 0 (Nat.succ_pos j)
      unfold updateFirst
      rw [if_neg hp]
      exact ih j (by simpa using hi) hurl (fun j2 hj2 => hfirst (j2 + 1) (by omega))

theorem updateFirst_url_getD (f : ProxyInfo → ProxyInfo) (url : String)
    (hf : ∀ p, (f p).url = p.url) :
    ∀ (l : List ProxyInfo) (j : Nat),
      ((updateFirst f url l).getD j dummyProxy).url = (l.getD j dummyProxy).url := by
  intro l
  induction l with
  | nil => intro j; rfl
  | cons p ps ih =>
    intro j
    unfold updateFirst
    split
    · cases j with
      | zero => exact hf p
      | succ j2 => rfl
    · cases j with
      | zero => rfl
      | succ j2 => exact ih j2

theorem applyFailure_iterate_count (maxF : Nat) : ∀ (k : Nat) (p : ProxyInfo),
    ((applyFailure maxF)^[k] p).fail_count = p.fail_count + k := by
  intro k
  induction k with
  | zero => intro p; rfl
  | succ n ih =>
    intro p
    rw [Function.iterate_succ_apply', applyFailure_count, ih]
    omega

theorem applyFailure_banned_of (maxF : Nat) (p : ProxyInfo)
    (h : maxF ≤ p.fail_count + 1) : (applyFailure maxF p).is_banned = true := by
  unfold applyFailure
  dsimp only
  rw [if_pos h]

theorem applyFailure_iterate_banned (maxF k : Nat) (p : ProxyInfo) (hk : 1 ≤ k)
    (h : maxF ≤ p.fail_count + k) : ((applyFailure maxF)^[k] p).is_banned = true := by
  obtain ⟨n, rfl⟩ : ∃ n, k = n + 1 := ⟨k - 1, by omega⟩
  rw [Function.iterate_succ_apply']
  exact applyFailure_banned_of maxF _ (by rw [applyFailure_iterate_count]; omega)

theorem markFailure_iterate_getD (pool : ProxyPool) (url : String) (i : Nat)
    (hi : i < pool.proxies.length)
    (hurl : (pool.proxies.getD i dummyProxy).url = url)
    (hfirst : ∀ j, j < i → (pool.proxies.getD j dummyProxy).url ≠ url) :
    ∀ k, ((((fun pl => markFailure pl url)^[k]) pool).proxies.getD i dummyProxy =
        (applyFailure pool.max_fail_count)^[k] (pool.proxies.getD i dummyProxy)) ∧
      (((fun pl => markFailure pl url)^[k]) pool).max_fail_count = pool.max_fail_count ∧
      (((fun pl => markFailure pl url)^[k]) pool).proxies.length = pool.proxies.length ∧
      (∀ j, ((((fun pl => markFailure pl url)^[k]) pool).proxies.getD j dummyProxy).url =
        (pool.proxies.getD j dummyProxy).url) := by
  intro k
  induction k with
  | zero => exact ⟨rfl, rfl, rfl, fun j => rfl⟩
  | succ n ih =>
    obtain ⟨ih1, ih2, ih3, ih4⟩ := ih
    rw [Function.iterate_succ_apply', Function.iterate_succ_apply']
    have hstep := updateFirst_getD_hit
      (applyFailure (((fun pl => markFailure pl url)^[n]) pool).max_fail_count) url
      ((((fun pl => markFailure pl url)^[n]) pool).proxies) i
      (by rw [ih3]; exact hi)
      (by rw [ih4 i]; exact hurl)
      (fun j hj => by rw [ih4 j]; exact hfirst j hj)
    refine ⟨?_, ?_, ?_, ?_⟩
    · show (updateFirst _ url _).getD i dummyProxy = _
      rw [hstep, ih1, ih2]
    · exact ih2
    · show (updateFirst _ url _).length = _
      rw [updateFirst_length, ih3]
    · intro j
      show ((updateFirst _ url _).getD j dummyProxy).url = _
      rw [updateFirst_url_getD _ _ (applyFailure_url _) _ j, ih4 j]

/-- C3 (confirmed): a proxy in the pool with `is_banned = False` whose
`fail_count` reaches exactly `max_fail_count` through `mark_failure` calls
(no intervening success) ends with `is_banned = True`, and one subsequent
`mark_success` for its URL resets `is_banned` to `False`.  The proxy is
addressed by position `i`, with the hypothesis that it is the first pool
entry bearing its URL (`_find_proxy` returns the first match). -/
theorem proxy_ban_unban (pool : ProxyPool) (url : String) (i k : Nat) (now rt : ℚ)
    (hi : i < pool.proxies.length)
    (hurl : (pool.proxies.getD i dummyProxy).url = url)
    (hfirst : ∀ j, j < i → (pool.proxies.getD j dummyProxy).url ≠ url)
    (_hban : (pool.proxies.getD i dummyProxy).is_banned = false)
    (hk : 1 ≤ k)
    (hcount : (pool.proxies.getD i dummyProxy).fail_count + k = pool.max_fail_count) :
    ((((fun pl => markFailure pl url)^[k]) pool).proxies.getD i dummyProxy).is_banned
        = true ∧
    ((markSuccess now rt (((fun pl => markFailure pl url)^[k]) pool) url).proxies.getD i
        dummyProxy).is_banned = false := by
  obtain ⟨h1, h2, h3, h4⟩ := markFailure_iterate_getD pool url i hi hurl hfirst k
  constructor
  · rw [h1]
    exact applyFailure_iterate_banned _ k _ hk (by omega)
  · unfold markSuccess
    rw [updateFirst_getD_hit (applySuccess now rt) url _ i
      (by rw [h3]; exact hi) (by rw [h4 i]; exact hurl)
      (fun j hj => by rw [h4 j]; exact hfirst j hj)]
    exact applySuccess_banned now rt _

/-- C3, witness: in `freshPoolU` (threshold 2), two `mark_failure` calls ban
proxy `"u"` and a single `mark_success` un-bans it. -/
theorem proxy_ban_unban_witness :
    ((((fun pl => markFailure pl "u")^[2]) freshPoolU).proxies.getD 0 dummyProxy).is_banned
        = true ∧
    ((markSuccess 5 1 (((fun pl => markFailure pl "u")^[2]) freshPoolU) "u").proxies.getD 0
        dummyProxy).is_banned = false :=
  proxy_ban_unban freshPoolU "u" 0 2 5 1 (by decide) rfl
    (fun j hj => absurd hj (by omega)) rfl (by decide) rfl

theorem updateFirst_fail_le (f : ProxyInfo → ProxyInfo) (url : String)
    (hf : ∀ p, p.fail_count ≤ (f p).fail_count) :
    ∀ (l : List ProxyInfo) (j : Nat),
      (l.getD j dummyProxy).fail_count ≤
        ((updateFirst f url l).getD j dummyProxy).fail_count := by
  intro l
  induction l with
  | nil => intro j; exact le_rfl
  | cons p ps ih =>
    intro j
    unfold updateFirst
    split
    · cases j with
      | zero => exact hf p
      | succ j2 => exact le_rfl
    · cases j with
      | zero => exact le_rfl
      | succ j2 => exact ih j2

theorem bumpIndex_proxies (pool : ProxyPool) : (bumpIndex pool).proxies = pool.proxies := by
  unfold bumpIndex
  split <;> rfl

theorem applyPoolOp_fail_le (pool : ProxyPool) (op : PoolOp) (j : Nat) :
    (pool.proxies.getD j dummyProxy).fail_count ≤
      ((applyPoolOp pool op).proxies.getD j dummyProxy).fail_count := by
  cases op with
  | op_success url now rt =>
    exact updateFirst_fail_le _ url (fun p => by rw [applySuccess_count]) pool.proxies j
  | op_failure url =>
    exact updateFirst_fail_le _ url (fun p => by rw [applyFailure_count]; omega)
      pool.proxies j
  | op_get now =>
    show (pool.proxies.getD j dummyProxy).fail_count ≤
      (((getProxy now pool).snd).proxies.getD j dummyProxy).fail_count
    unfold getProxy
    split
    · exact le_rfl
    · dsimp only
      split
      · exact le_rfl
      · show (pool.proxies.getD j dummyProxy).fail_count ≤
          ((updateFirst _ _ (bumpIndex pool).proxies).getD j dummyProxy).fail_count
        rw [bumpIndex_proxies]
        exact updateFirst_fail_le
          (fun p => { p with last_used := some now }) _ (fun p => le_rfl) pool.proxies j
  | op_add url protocol =>
    show (pool.proxies.getD j dummyProxy).fail_count ≤
      ((pool.proxies ++ [mkProxyInfo url protocol]).getD j dummyProxy).fail_count
    by_cases hj : j < pool.proxies.length
    · rw [List.getD_append _ _ _ _ hj]
    · rw [List.getD_eq_default _ _ (by omega)]
      exact Nat.zero_le _

theorem runPoolOps_fail_le (ops : List PoolOp) (pool : ProxyPool) (j : Nat) :
    (pool.proxies.getD j dummyProxy).fail_count ≤
      ((runPoolOps pool ops).proxies.getD j dummyProxy).fail_count := by
  induction ops generalizing pool with
  | nil => exact le_rfl
  | cons op rest ih =>
    exact le_trans (applyPoolOp_fail_le pool op j) (ih (applyPoolOp pool op))

/-- C9 (confirmed): `fail_count` is monotone non-decreasing under every
pool operation (`mark_success` clears the ban but never resets the
counter, `get_proxy` only stamps `last_used`, `add_proxy` only appends);
and once a proxy's `fail_count` has reached `max_fail_count`, after an
un-banning `mark_success` a single further `mark_failure` immediately
re-bans it. -/
theorem proxy_failCount_monotone_reban :
    (∀ (ops : List PoolOp) (pool : ProxyPool) (j : Nat),
      (pool.proxies.getD j dummyProxy).fail_count ≤
        ((runPoolOps pool ops).proxies.getD j dummyProxy).fail_count) ∧
    (∀ (maxF : Nat) (now rt : ℚ) (p : ProxyInfo), maxF ≤ p.fail_count →
      (applySuccess now rt p).is_banned = false ∧
      (applyFailure maxF (applySuccess now rt p)).is_banned = true) := by
  constructor
  · exact fun ops pool j => runPoolOps_fail_le ops pool j
  · intro maxF now rt p h
    refine ⟨applySuccess_banned now rt p, ?_⟩
    exact applyFailure_banned_of maxF _ (by rw [applySuccess_count]; omega)

/-- C9, witness: `fail_count` of the single proxy of `freshPoolU` does not
decrease under a success-after-failure sequence, and the worn proxy (5
failures, threshold 5) is un-banned by a success and immediately re-banned
by the next failure. -/
theorem proxy_failCount_monotone_reban_witness :
    ((freshPoolU.proxies.getD 0 dummyProxy).fail_count ≤
      ((runPoolOps freshPoolU
          [PoolOp.op_failure "u", PoolOp.op_success "u" 3 1]).proxies.getD 0
        dummyProxy).fail_count) ∧
    (applySuccess 7 1 wornProxy).is_banned = false ∧
    (applyFailure 5 (applySuccess 7 1 wornProxy)).is_banned = true := by
  refine ⟨proxy_failCount_monotone_reban.1
    [PoolOp.op_failure "u", PoolOp.op_success "u" 3 1] freshPoolU 0, ?_, ?_⟩
  · exact (proxy_failCount_monotone_reban.2 5 7 1 wornProxy (by decide)).1
  · exact (proxy_failCount_monotone_reban.2 5 7 1 wornProxy (by decide)).2

/-! ## Item completion summary (claim C7) -/

theorem filter_split_length (results : List (Bool × FileDesc)) :
    (results.filter (fun r => r.fst)).length +
      (results.filter (fun r => !r.fst)).length = results.length := by
  induction results with
  | nil => rfl
  | cons r rest ih =>
    cases hr : r.fst <;> simp [List.filter_cons, hr] <;> omega

theorem attachChecksum_path (hash : List Nat → String) (disk : Disk) (fd : FileDesc) :
    (attachChecksum hash disk fd).path = fd.path := by
  unfold attachChecksum
  split
  · split <;> rfl
  · rfl

theorem attachChecksum_sha_readable (hash : List Nat → String) (disk : Disk)
    (fd : FileDesc) (p : String) (bs : List Nat)
    (hpath : fd.path = some p) (hpne : p ≠ "")
    (hdisk : disk p = some (DiskFile.readable bs)) :
    (attachChecksum hash disk fd).sha256 = some (hash bs) := by
  have hcond : (decide (p ≠ "") && (disk p).isSome) = true := by
    rw [hdisk]
    simp [hpne]
  unfold attachChecksum
  rw [hpath]
  simp only [hcond, if_true]
  show some (calcSha256 hash disk p) = some (hash bs)
  unfold calcSha256
  rw [hdisk]

theorem attachChecksum_sha_unreadable (hash : List Nat → String) (disk : Disk)
    (fd : FileDesc) (p : String)
    (hpath : fd.path = some p) (hpne : p ≠ "")
    (hdisk : disk p = some DiskFile.unreadable) :
    (attachChecksum hash disk fd).sha256 = some "" := by
  have hcond : (decide (p ≠ "") && (disk p).isSome) = true := by
    rw [hdisk]
    simp [hpne]
  unfold attachChecksum
  rw [hpath]
  simp only [hcond, if_true]
  show some (calcSha256 hash disk p) = some ""
  unfold calcSha256
  rw [hdisk]

/-- C7 (confirmed): `item_completed` attaches a summary holding exactly the
count of successful downloads, the count of failed downloads (together they
exhaust the results), and the list of the successful file descriptors; every
successful file whose stored path is readable on disk carries a non-empty
SHA-256 digest equal to the digest of the file's bytes, and a
digest-computation failure (unreadable file) leaves the digest empty while
the descriptor stays in the successful list.  `hash` is the SHA-256 hex
digest function of `hashlib`, whose output is never the empty string. -/
theorem itemCompleted_summary (hash : List Nat → String) (disk : Disk)
    (results : List (Bool × FileDesc)) (hhash : ∀ bs, hash bs ≠ "") :
    (itemCompleted hash disk results).successful =
      (results.filter (fun r => r.fst)).length ∧
    (itemCompleted hash disk results).failed =
      (results.filter (fun r => !r.fst)).length ∧
    (itemCompleted hash disk results).successful +
      (itemCompleted hash disk results).failed = results.length ∧
    (itemCompleted hash disk results).files =
      ((results.filter (fun r => r.fst)).map (fun r => r.snd)).map
        (attachChecksum hash disk) ∧
    (∀ fd ∈ (itemCompleted hash disk results).files, ∀ p, fd.path = some p → p ≠ "" →
      (∀ bs, disk p = some (DiskFile.readable bs) →
        fd.sha256 = some (hash bs) ∧ fd.sha256 ≠ some "") ∧
      (disk p = some DiskFile.unreadable → fd.sha256 = some "")) := by
  refine ⟨by simp [itemCompleted], by simp [itemCompleted], ?_, rfl, ?_⟩
  · show ((results.filter (fun r => r.fst)).map (fun r => r.snd)).length +
      ((results.filter (fun r => !r.fst)).map (fun r => r.snd)).length = results.length
    rw [List.length_map, List.length_map]
    exact filter_split_length results
  · intro fd hfd p hp hpne
    rw [show (itemCompleted hash disk results).files =
      ((results.filter (fun r => r.fst)).map (fun r => r.snd)).map
        (attachChecksum hash disk) from rfl] at hfd
    obtain ⟨fd0, hmem0, rfl⟩ := List.mem_map.mp hfd
    have hpath0 : fd0.path = some p := by
      rw [← attachChecksum_path hash disk fd0]
      exact hp
    constructor
    · intro bs hbs
      have h := attachChecksum_sha_readable hash disk fd0 p bs hpath0 hpne hbs
      refine ⟨h, ?_⟩
      rw [h]
      intro hcontra
      exact hhash bs (Option.some.inj hcontra)
    · intro hunread
      exact attachChecksum_sha_unreadable hash disk fd0 p hpath0 hpne hunread

/-- C7, witness: one successful download stored at a readable path and one
failed download; the summary counts 1/1 and the successful entry carries
the (non-empty) digest of the stored bytes. -/
theorem itemCompleted_summary_witness :
    (itemCompleted (fun _ => "d41")
        (fun p => if p = "main_file/T1.pdf" then some (DiskFile.readable [1, 2]) else none)
        [(true, { url := "http://a", path := some "main_file/T1.pdf", sha256 := none }),
         (false, { url := "http://b", path := none, sha256 := none })]).successful = 1 ∧
    (itemCompleted (fun _ => "d41")
        (fun p => if p = "main_file/T1.pdf" then some (DiskFile.readable [1, 2]) else none)
        [(true, { url := "http://a", path := some "main_file/T1.pdf", sha256 := none }),
         (false, { url := "http://b", path := none, sha256 := none })]).failed = 1 ∧
    (∀ fd ∈ (itemCompleted (fun _ => "d41")
        (fun p => if p = "main_file/T1.pdf" then some (DiskFile.readable [1, 2]) else none)
        [(true, { url := "http://a", path := some "main_file/T1.pdf", sha256 := none }),
         (false, { url := "http://b", path := none, sha256 := none })]).files,
      ∀ p2, fd.path = some p2 → p2 ≠ "" →
        (∀ bs, (fun p => if p = "main_file/T1.pdf" then some (DiskFile.readable [1, 2])
            else none) p2 = some (DiskFile.readable bs) →
          fd.sha256 = some ((fun _ => "d41") bs) ∧ fd.sha256 ≠ some "")) := by
  have h := itemCompleted_summary (fun _ => "d41")
    (fun p => if p = "main_file/T1.pdf" then some (DiskFile.readable [1, 2]) else none)
    [(true, { url := "http://a", path := some "main_file/T1.pdf", sha256 := none }),
     (false, { url := "http://b", path := none, sha256 := none })]
    (fun bs => show ("d41" : String) ≠ "" by decide)
  refine ⟨?_, ?_, ?_⟩
  · rw [h.1]
    rfl
  · rw [h.2.1]
    rfl
  · intro fd hfd p2 hp2 hp2ne bs hbs
    exact (h.2.2.2.2 fd hfd p2 hp2 hp2ne).1 bs hbs

end Scraper
